import Mathlib

/-!
# littr.go: content addressing, thread paths and the federation repository

A shallow embedding of `app/models/content.go`, `app/api/loader.go` and
`app/frontend/login.go`.

* Go `byte` is `UInt8`; both `[]byte` and `string` are lists of bytes (`ByteSeq`).
  A slice whose nil-ness the code inspects (`item.Path`) is an `Option ByteSeq`,
  `none` being the nil slice.
* A Go call that may panic returns a `Res`.
* A Go `error` is a `GoError`, kept in the form the source builds it
  (format string and arguments); `GoError.Error` renders the message.
* Library functions the source calls (`sha256.Sum256`, the JSON codec, the HTTP
  transport, ...) and functions of the repository that live in files not at hand
  are parameters, collected in `Env` for the api layer.
* Slices are values: no two of them share a backing array.
* Log statements are left out where they have no effect on results; in
  `login.go` the argument `err.Error()` of a log statement is kept.
-/

namespace Littr

/-! ## Go primitives -/

/-- Byte strings: Go `[]byte` and Go `string`. -/
abbrev ByteSeq := List UInt8

/-- The bytes of a string constant (Go source text is UTF-8). -/
def str (s : String) : ByteSeq := s.toList.flatMap String.utf8EncodeChar

/-- Result of a call that either returns or panics. -/
inductive Res (α : Type) where
  | ret (a : α)
  | panic (why : String)
deriving DecidableEq

/-- Applies a function to the returned value. -/
def Res.map {α β : Type} (f : α → β) : Res α → Res β
  | .ret a => .ret (f a)
  | .panic w => .panic w

/-- Arguments handed to a `Sprintf`-style formatter. -/
inductive Arg where
  | s (v : ByteSeq)
  | d (v : Int)
deriving DecidableEq

/-- Go error values: `errors.Errorf`/`fmt.Errorf` with their format and arguments,
`errors.New` with its text, and errors handed back by a library. -/
inductive GoError where
  | errorf (format : String) (args : List Arg)
  | new (msg : String)
  | lib (msg : ByteSeq)
deriving DecidableEq

/-- ASCII digit for `d < 10`. -/
def digitByte (d : Nat) : UInt8 := UInt8.ofNat (48 + d)

/-- Decimal digits of `n`, most significant first; `fuel` bounds the digit count. -/
def decDigits : Nat → Nat → ByteSeq
  | 0, _ => []
  | fuel + 1, n =>
    if n < 10 then [digitByte n] else decDigits fuel (n / 10) ++ [digitByte (n % 10)]

/-- Decimal rendering of a natural number. -/
def fmtNat (n : Nat) : ByteSeq := decDigits (n + 1) n

/-- The verb `%d` on an integer: an optional minus sign, then decimal digits. -/
def fmtInt (i : Int) : ByteSeq :=
  if i < 0 then 45 :: fmtNat i.natAbs else fmtNat i.toNat

/-- Lowercase hexadecimal digit for `n < 16`. -/
def hexDigit (n : Nat) : UInt8 :=
  if n < 10 then UInt8.ofNat (48 + n) else UInt8.ofNat (87 + n)

/-- The verb `%x` on a byte array: two lowercase hex digits per byte. -/
def fmtHex (bs : ByteSeq) : ByteSeq :=
  bs.flatMap fun b => [hexDigit (b.toNat / 16), hexDigit (b.toNat % 16)]

/-- Go `Sprintf` restricted to the verbs `%s` and `%d` with arguments of the
matching type; `none` outside that fragment. -/
def sprintf : List Char → List Arg → Option ByteSeq
  | [], [] => some []
  | [], _ :: _ => none
  | '%' :: 's' :: fs, Arg.s v :: as => (sprintf fs as).map (v ++ ·)
  | '%' :: 'd' :: fs, Arg.d v :: as => (sprintf fs as).map (fmtInt v ++ ·)
  | '%' :: _, _ => none
  | c :: fs, as => (sprintf fs as).map (String.utf8EncodeChar c ++ ·)

/-- The message of an error (`err.Error()`), where the model can render it. -/
def GoError.Error : GoError → Option ByteSeq
  | .errorf format args => sprintf format.toList args
  | .new msg => some (str msg)
  | .lib msg => some msg

/-- Wraps an integer into the range of `int64`. -/
def wrapInt64 (x : Int) : Int := (x + 2 ^ 63) % 2 ^ 64 - 2 ^ 63

/-- Go `time.Time` as an instant: seconds since January 1 of year 1 (UTC) and
nanoseconds within the second. -/
structure Time where
  sec : Int
  nsec : Int
deriving DecidableEq

/-- Seconds from year 1 to the Unix epoch, negated (`internalToUnix`). -/
def internalToUnix : Int := -62135596800

/-- Go `Time.IsZero`. -/
def Time.IsZero (t : Time) : Bool := t.sec == 0 && t.nsec == 0

/-- Go `Time.UnixNano`, computed in `int64`. -/
def Time.UnixNano (t : Time) : Int :=
  wrapInt64 ((t.sec + internalToUnix) * 1000000000 + t.nsec)

/-- Continuation byte of a UTF-8 sequence. -/
def isCont (b : UInt8) : Bool := 0x80 ≤ b.toNat && b.toNat ≤ 0xBF

/-- Lowest second byte accepted after the lead byte `b0` of a 3- or 4-byte sequence. -/
def secondLo (b0 : UInt8) : Nat :=
  if b0.toNat = 0xE0 then 0xA0 else if b0.toNat = 0xF0 then 0x90 else 0x80

/-- Highest second byte accepted after the lead byte `b0`. -/
def secondHi (b0 : UInt8) : Nat :=
  if b0.toNat = 0xED then 0x9F else if b0.toNat = 0xF4 then 0x8F else 0xBF

/-- Number of bytes the first rune of a non-empty string takes when a
`for range` loop decodes it; an invalid or truncated sequence takes one byte. -/
def runeWidth : ByteSeq → Nat
  | [] => 0
  | b0 :: rest =>
    if b0.toNat < 0x80 then 1
    else if 0xC2 ≤ b0.toNat ∧ b0.toNat ≤ 0xDF then
      match rest with
      | b1 :: _ => if isCont b1 then 2 else 1
      | _ => 1
    else if 0xE0 ≤ b0.toNat ∧ b0.toNat ≤ 0xEF then
      match rest with
      | b1 :: b2 :: _ =>
        if secondLo b0 ≤ b1.toNat ∧ b1.toNat ≤ secondHi b0 ∧ isCont b2 then 3 else 1
      | _ => 1
    else if 0xF0 ≤ b0.toNat ∧ b0.toNat ≤ 0xF4 then
      match rest with
      | b1 :: b2 :: b3 :: _ =>
        if secondLo b0 ≤ b1.toNat ∧ b1.toNat ≤ secondHi b0 ∧ isCont b2 ∧ isCont b3 then 4
        else 1
      | _ => 1
    else 1

/-- Byte offsets visited by `for i := range s` on a string whose remaining part
is `rest`, the next offset being `i`. -/
def runeStartsFrom : Nat → Nat → ByteSeq → List Nat
  | 0, _, _ => []
  | _ + 1, _, [] => []
  | fuel + 1, i, b :: rest =>
    i :: runeStartsFrom fuel (i + runeWidth (b :: rest)) ((b :: rest).drop (runeWidth (b :: rest)))

/-- Offsets visited by `for i := range s` on a string. -/
def runeStarts (s : ByteSeq) : List Nat := runeStartsFrom s.length 0 s

/-! ## app/models/content.go -/

/-- Go `type FlagBits uint8`. -/
abbrev FlagBits := Nat

/-- Go `FlagsDeleted = FlagBits(1 << iota)`, the first constant of its block. -/
def FlagsDeleted : FlagBits := 1

/-- Go `FlagsNone = FlagBits(0)`. -/
def FlagsNone : FlagBits := 0

/-- Go `MimeTypeURL`. -/
def MimeTypeURL : ByteSeq := str "application/url"

/-- Go `type Hash string`. -/
abbrev Hash := ByteSeq

/-- Go `type Key [64]byte`. -/
structure Key where
  bytes : ByteSeq
  size_eq : bytes.length = 64
deriving DecidableEq

/-- The zero value of `Key`. -/
def Key.zero : Key := ⟨List.replicate 64 0, by simp⟩

/-- Go `Key.String`: `string(k[0:64])`. -/
def Key.String (k : Key) : ByteSeq := (k.bytes.drop 0).take 64

/-- Go `Key.Bytes`: `[]byte(k[0:64])`. -/
def Key.Bytes (k : Key) : ByteSeq := (k.bytes.drop 0).take 64

/-- The loop body `k[i] = s[i]` run for each offset of `idx` in turn; writing at
an offset outside the array panics. -/
def Key.assign (s : ByteSeq) : List Nat → Key → Res Key
  | [], k => .ret k
  | i :: idx, k =>
    match s[i]? with
    | none => .panic "index out of range"
    | some b =>
      if h : i < 64 then Key.assign s idx ⟨k.bytes.set i b, by simp [k.size_eq]⟩
      else .panic "index out of range [64] with length 64"

/-- Go `Key.FromBytes`: returns the updated key and the error. -/
def Key.FromBytes (k : Key) (s : ByteSeq) : Res (Key × Option GoError) :=
  let err : Option GoError := none
  let err := if s.length > 64 then
    some (GoError.errorf "incoming byte array %q longer than expected " [Arg.s s]) else err
  let err := if s.length < 64 then
    some (GoError.errorf "incoming byte array %q longer than expected " [Arg.s s]) else err
  (Key.assign s (List.range s.length) k).map fun k1 => (k1, err)

/-- Go `Key.FromString`: as `FromBytes`, the loop ranging over the runes of `s`. -/
def Key.FromString (k : Key) (s : ByteSeq) : Res (Key × Option GoError) :=
  let err : Option GoError := none
  let err := if s.length > 64 then
    some (GoError.errorf "incoming string %q longer than expected " [Arg.s s]) else err
  let err := if s.length < 64 then
    some (GoError.errorf "incoming string %q longer than expected " [Arg.s s]) else err
  (Key.assign s (runeStarts s) k).map fun k1 => (k1, err)

/-- Go `type item struct`; `SubmittedByAccount` is left out (no modelled method reads it). -/
structure item where
  Id : Int
  Key : Littr.Key
  Title : ByteSeq
  MimeType : ByteSeq
  Data : ByteSeq
  Score : Int
  SubmittedAt : Time
  SubmittedBy : Int
  UpdatedAt : Time
  Flags : FlagBits
  Metadata : ByteSeq
  Path : Option ByteSeq
  fullPath : ByteSeq
  parentLink : ByteSeq
deriving DecidableEq

/-- The bytes of a possibly nil slice. -/
def sliceBytes (p : Option ByteSeq) : ByteSeq := p.getD []

/-- Go `getAncestorHash`: the `cnt`-th segment from the end of the dot-separated path. -/
def getAncestorHash (path : Option ByteSeq) (cnt : Int) : Res (Option ByteSeq) :=
  match path with
  | none => .ret none
  | some p =>
    let elem := p.splitOn 46
    let l : Int := elem.length
    let cnt := if cnt > l ∨ cnt < 0 then l else cnt
    if l - cnt < 0 then .panic "index out of range"
    else
      match elem[(l - cnt).toNat]? with
      | some e => .ret (some e)
      | none => .panic "index out of range"

/-- Go `item.IsTop`. -/
def item.IsTop (c : item) : Bool :=
  c.Path.isNone || (sliceBytes c.Path).length == 0

/-- Go `item.GetParentHash`. -/
def item.GetParentHash (c : item) : Res Littr.Hash :=
  if c.IsTop then .ret (str "") else (getAncestorHash c.Path 1).map sliceBytes

/-- Go `item.GetOPHash`. -/
def item.GetOPHash (c : item) : Res Littr.Hash :=
  if c.IsTop then .ret (str "") else (getAncestorHash c.Path (-1)).map sliceBytes

/-- Go `[32]byte`, the result type of `sha256.Sum256`. -/
structure Digest where
  bytes : ByteSeq
  size_eq : bytes.length = 32
deriving DecidableEq

/-- The byte string `GetKey` hands to `sha256.Sum256`; `clock` is what
`time.Now()` returns. -/
def item.keyInput (clock : Time) (c : item) : ByteSeq :=
  let data := c.Data
  let now := c.UpdatedAt
  let now := if now.IsZero then clock else now
  let data := data ++ fmtInt now.UnixNano
  let data := data ++ sliceBytes c.Path
  let data := data ++ fmtInt c.SubmittedBy
  data

/-- Go `item.GetKey`: returns the key and the item with the key stored. The error
of `FromString` is dropped, as in the source. -/
def item.GetKey (sum256 : ByteSeq → Digest) (clock : Time) (c : item) : Res (Littr.Key × item) :=
  (c.Key.FromString (fmtHex (sum256 (c.keyInput clock)).bytes)).map fun r =>
    (r.1, { c with Key := r.1 })

/-- Go `item.Hash8`. -/
def item.Hash8 (c : item) : Littr.Hash :=
  if c.Key.bytes.length > 8 then c.Key.bytes.take 8 else c.Key.String

/-- Go `item.Hash`. -/
def item.Hash (c : item) : Littr.Hash := c.Hash8

/-- Go `item.Hash16`. -/
def item.Hash16 (c : item) : Littr.Hash :=
  if c.Key.bytes.length > 16 then c.Key.bytes.take 16 else c.Key.String

/-- Go `item.Hash32`. -/
def item.Hash32 (c : item) : Littr.Hash :=
  if c.Key.bytes.length > 32 then c.Key.bytes.take 32 else c.Key.String

/-- Go `item.Hash64`. -/
def item.Hash64 (c : item) : Littr.Hash := c.Key.String

/-- Go `item.FullPath`: returns the path and the item with the cache filled. -/
def item.FullPath (c : item) : ByteSeq × item :=
  if c.fullPath.length = 0 then
    let fp := c.fullPath ++ sliceBytes c.Path
    let fp := if fp.length > 0 then fp ++ [46] else fp
    let fp := fp ++ c.Key.Bytes
    (fp, { c with fullPath := fp })
  else (c.fullPath, c)

/-- Go `item.Deleted`. -/
def item.Deleted (c : item) : Bool := (c.Flags &&& FlagsDeleted) == FlagsDeleted

/-- Go `item.UnDelete`. The receiver is a value, so `c.Flags ^= FlagsDeleted`
changes a copy; the item of the caller, returned here, stays as it is. -/
def item.UnDelete (c : item) : item := c

/-- Go `item.Delete`: the item after `c.Flags &= FlagsDeleted`. -/
def item.Delete (c : item) : item := { c with Flags := c.Flags &&& FlagsDeleted }

/-! ## Types of package `models` and of the ActivityPub library, as the api layer uses them

Only the fields that `loader.go` reads or writes are kept. -/

/-- Go `models.SSHKey`. -/
structure SSHKey where
  ID : ByteSeq
  Private : ByteSeq
  Public : ByteSeq
deriving DecidableEq

/-- Go `models.AccountMetadata`; `Key` is a pointer. -/
structure AccountMetadata where
  Key : Option SSHKey
deriving DecidableEq

/-- Go `models.Account`; `Metadata` is a pointer. -/
structure Account where
  Hash : Littr.Hash
  Handle : ByteSeq
  Email : ByteSeq
  Metadata : Option AccountMetadata
  Score : Int
  Flags : FlagBits
deriving DecidableEq

/-- The zero value of `models.Account`. -/
def Account.zero : Account :=
  { Hash := [], Handle := [], Email := [], Metadata := none, Score := 0, Flags := 0 }

/-- A non-nil `*models.Account`: its address and the value it points to. -/
structure AccountPtr where
  addr : Nat
  val : Account
deriving DecidableEq

/-- What `Item.Parent` and `Item.OP` point to: a `models.Item` of which the api
layer sets the `Hash` alone. -/
structure ItemRef where
  Hash : Littr.Hash
deriving DecidableEq

/-- Go `models.Item`; `SubmittedBy`, `Parent` and `OP` are pointers. -/
structure Item where
  Hash : Littr.Hash
  Title : ByteSeq
  MimeType : ByteSeq
  Data : ByteSeq
  Score : Int
  SubmittedAt : Time
  SubmittedBy : Option Account
  Parent : Option ItemRef
  OP : Option ItemRef
deriving DecidableEq

/-- The zero value `models.Item{}`. -/
def Item.zero : Item :=
  { Hash := [], Title := [], MimeType := [], Data := [], Score := 0, SubmittedAt := ⟨0, 0⟩,
    SubmittedBy := none, Parent := none, OP := none }

/-- Go `models.Vote`; `SubmittedBy` and `Item` are pointers. -/
structure Vote where
  SubmittedBy : Option Account
  Weight : Int
  Item : Option Littr.Item
  Flags : FlagBits
deriving DecidableEq

/-- The zero value `models.Vote{}`. -/
def Vote.zero : Vote := { SubmittedBy := none, Weight := 0, Item := none, Flags := 0 }

/-- Go `models.LoadItemsFilter`: the fields `loader.go` touches, the remaining ones
kept together in `Other`. -/
structure LoadItemsFilter where
  Key : List ByteSeq
  AttributedTo : List Littr.Hash
  MaxItems : Int
  Other : ByteSeq
deriving DecidableEq

/-- The zero value of `models.LoadItemsFilter`. -/
def LoadItemsFilter.zero : LoadItemsFilter :=
  { Key := [], AttributedTo := [], MaxItems := 0, Other := [] }

/-- A field of interface type `ap.Item` inside a decoded object: nil, an
`ap.IRI`, or a pointer to some other value, known by its address. -/
inductive Ref where
  | nil
  | iri (v : ByteSeq)
  | ptr (addr : Nat)
deriving DecidableEq

/-- Go `ap.NaturalLanguageValue`: language tags with their text. -/
abbrev NaturalLanguageValue := List (ByteSeq × ByteSeq)

/-- Go `ap.Object`. -/
structure APObject where
  ID : ByteSeq
  Name : NaturalLanguageValue
  Content : NaturalLanguageValue
  MediaType : ByteSeq
  Published : Time
  AttributedTo : Ref
  InReplyTo : Ref
  Context : Ref
deriving DecidableEq

/-- The zero value of `ap.Object`. -/
def APObject.zero : APObject :=
  { ID := [], Name := [], Content := [], MediaType := [], Published := ⟨0, 0⟩,
    AttributedTo := .nil, InReplyTo := .nil, Context := .nil }

/-- Go `api.Article`: an `ap.Object` with a score. -/
structure Article where
  Object : APObject
  Score : Int
deriving DecidableEq

/-- The zero value of `api.Article`. -/
def Article.zero : Article := { Object := APObject.zero, Score := 0 }

/-- Go `api.Person`. -/
structure Person where
  ID : ByteSeq
  Name : NaturalLanguageValue
  PublicKeyPem : ByteSeq
  Score : Int
deriving DecidableEq

/-- A value of interface type `ap.Item`, by dynamic type: the nil interface, an
`ap.IRI`, an `Article` or `ap.Object` held by value or through a (non-nil)
pointer, a `Person`, or a value of another type, of which the identifier and the
answer of `IsLink` are kept. -/
inductive APItem where
  | nil
  | iri (v : ByteSeq)
  | article (a : Article)
  | articlePtr (a : Article)
  | object (o : APObject)
  | objectPtr (o : APObject)
  | person (p : Person)
  | other (id : ByteSeq) (isLink : Bool)
deriving DecidableEq

/-- Go `ap.Item.IsLink`; `none` when the call panics (nil interface). -/
def APItem.IsLink : APItem → Option Bool
  | .nil => none
  | .iri _ => some true
  | .other _ l => some l
  | _ => some false

/-- The `ObjectID` that `GetID` points to; `none` when the call panics (nil interface). -/
def APItem.GetID : APItem → Option ByteSeq
  | .nil => none
  | .iri v => some v
  | .article a => some a.Object.ID
  | .articlePtr a => some a.Object.ID
  | .object o => some o.ID
  | .objectPtr o => some o.ID
  | .person p => some p.ID
  | .other id _ => some id

/-- Go `ap.ActivityVocabularyType` constants. -/
def CreateType : ByteSeq := str "Create"
/-- Go `ap.UpdateType`. -/
def UpdateType : ByteSeq := str "Update"
/-- Go `ap.LikeType`. -/
def LikeType : ByteSeq := str "Like"
/-- Go `ap.DislikeType`. -/
def DislikeType : ByteSeq := str "Dislike"

/-- Go `ap.Activity`; `Typ` is its field `Type`. -/
structure Activity where
  ID : ByteSeq
  Typ : ByteSeq
  Actor : APItem
  Object : APItem
  AttributedTo : APItem
deriving DecidableEq

/-- Go `ap.CreateActivityNew(id, actor, object)`. -/
def CreateActivityNew (id : ByteSeq) (a o : APItem) : Activity :=
  { ID := id, Typ := CreateType, Actor := a, Object := o, AttributedTo := .nil }

/-- Go `ap.UpdateActivityNew(id, actor, object)`. -/
def UpdateActivityNew (id : ByteSeq) (a o : APItem) : Activity :=
  { ID := id, Typ := UpdateType, Actor := a, Object := o, AttributedTo := .nil }

/-- Go `models.LoadVotesFilter`: the fields `loader.go` touches, the remaining
ones kept together in `Other`. -/
structure LoadVotesFilter where
  ItemKey : List ByteSeq
  AttributedTo : List Littr.Hash
  MaxItems : Int
  Other : ByteSeq
deriving DecidableEq

/-- The zero value of `models.LoadVotesFilter`. -/
def LoadVotesFilter.zero : LoadVotesFilter :=
  { ItemKey := [], AttributedTo := [], MaxItems := 0, Other := [] }

/-- Go `models.VoteCollection`, a map from item hash to vote: at most one entry
per key, the most recently assigned first. -/
abbrev VoteCollection := List (Littr.Hash × Vote)

/-- The map assignment `items[k] = v`. -/
def VoteCollection.assign (m : VoteCollection) (k : Littr.Hash) (v : Vote) : VoteCollection :=
  (k, v) :: m.filter fun e => e.1 != k

/-- The map lookup `items[k]`, `none` for an absent key. -/
def VoteCollection.lookup (m : VoteCollection) (k : Littr.Hash) : Option Vote :=
  (m.find? fun e => e.1 == k).map fun e => e.2

/-- An entry of `OrderedItems`: an `ap.Item` of one of the dynamic types of
`APItem` (where `other` then stands for a type that is none of the following),
or a non-nil pointer to an `ap.Like`, an `ap.Dislike` or an `ap.Activity`. -/
inductive CollItem where
  | item (i : APItem)
  | like (a : Activity)
  | dislike (a : Activity)
  | activity (a : Activity)
deriving DecidableEq

/-- An entry as `loadFromAPItem` sees it: an activity is not a link and is none
of the types that function knows. -/
def CollItem.asItem : CollItem → APItem
  | .item i => i
  | .like a => .other a.ID false
  | .dislike a => .other a.ID false
  | .activity a => .other a.ID false

/-- The ordered collection of package `api`: the declared total and the entries. -/
structure OrderedCollection where
  ID : ByteSeq
  TotalItems : Nat
  OrderedItems : List CollItem
deriving DecidableEq

/-! ## net/http -/

/-- Go `http.Header`, one value per key. -/
abbrev Header := List (ByteSeq × ByteSeq)

/-- Go `Header.Set`. -/
def Header.Set (h : Header) (k v : ByteSeq) : Header :=
  (k, v) :: h.filter fun e => e.1 != k

/-- Go `Header.Get`: the value stored under `k`, or the empty string. -/
def Header.Get (h : Header) (k : ByteSeq) : ByteSeq :=
  match h.find? fun e => e.1 == k with
  | some e => e.2
  | none => []

/-- Go `http.Request`. -/
structure Request where
  Method : ByteSeq
  URL : ByteSeq
  Header : Littr.Header
  Body : Option ByteSeq
deriving DecidableEq

/-- Go `http.Response`; `Body` is what `ioutil.ReadAll(resp.Body)` yields. -/
structure Response where
  Status : ByteSeq
  StatusCode : Int
  Header : Littr.Header
  Body : Except GoError ByteSeq

/-- Go `crypto.PrivateKey`, as parsed from its encoding. -/
structure PrivateKey where
  der : ByteSeq
deriving DecidableEq

/-- Go `path.Base`: the last element of a slash-separated path. -/
def pathBase (path : ByteSeq) : ByteSeq :=
  if path = [] then str "."
  else
    let path := (path.reverse.dropWhile fun b => b == 47).reverse
    let path := (path.reverse.takeWhile fun b => b != 47).reverse
    if path = [] then str "/" else path

/-! ## app/api/loader.go -/

/-- What `loader.go` takes from outside the files at hand: globals of other
packages, the standard library, the ActivityPub and query-string libraries, and
functions of package `api` defined in other files. `Do` is
`http.DefaultClient.Do`; its answer may depend on the requests sent before.
`SignRequest` yields the header of the request after signing, and the error.
`UnmarshalCollection url body` is `j.Unmarshal(body, &col)` for the collection
`col` made by `OrderedCollectionNew(url)`; `MarshalString` and
`MarshalVotesString` are `qstring.MarshalString` on the two filter types.
`MaxSliceLen` is the largest length `make([]models.Item, n)` accepts: the
allocation limit of the platform divided by the size of a `models.Item`, at most
the largest `int`. -/
structure Env where
  HostName : ByteSeq
  Version : ByteSeq
  AnonymousAccount : Nat
  NewRequest : ByteSeq → ByteSeq → Option GoError
  Do : List Request → Request → Except GoError Response
  ParsePKCS8PrivateKey : ByteSeq → Except GoError PrivateKey
  SignRequest : Request → Person → Option PrivateKey → Header × Option GoError
  loadAPPerson : Account → Person
  loadAPItem : Item → APItem
  getHashFromAP : APItem → Littr.Hash
  getAccountHandle : Ref → ByteSeq
  HashString : Littr.Hash → ByteSeq
  Marshal : Activity → Except GoError ByteSeq
  UnmarshalArticle : ByteSeq → Except GoError Article
  MarshalString : LoadItemsFilter → Except GoError ByteSeq
  Unescape : ByteSeq → Except GoError ByteSeq
  First : NaturalLanguageValue → ByteSeq
  UnmarshalCollection : ByteSeq → ByteSeq → Except GoError OrderedCollection
  MaxSliceLen : Nat
  UnmarshalActivity : ByteSeq → Except GoError Activity
  MarshalVotesString : LoadVotesFilter → Except GoError ByteSeq

/-- A call that talks to the network: its result, and all requests handed to
the HTTP client so far, oldest first. -/
structure Run (α : Type) where
  res : Res α
  sent : List Request

/-- Go `type repository struct`; `Account` is a pointer. -/
structure repository where
  BaseUrl : ByteSeq
  Account : Option AccountPtr
deriving DecidableEq

/-- Go `jsonUnescape`. -/
def jsonUnescape (env : Env) (s : ByteSeq) : ByteSeq :=
  match env.Unescape s with
  | .error _ => s
  | .ok out => out

/-- Go `loadFromAPObject`. -/
def loadFromAPObject (env : Env) (ob : APObject) : Item × Option GoError :=
  let title := jsonUnescape env (env.First ob.Name)
  let content := jsonUnescape env (env.First ob.Content)
  let c : Item :=
    { Item.zero with
      Hash := env.getHashFromAP (.object ob)
      Title := title
      MimeType := ob.MediaType
      Data := content
      SubmittedAt := ob.Published
      SubmittedBy := some { Account.zero with Handle := env.getAccountHandle ob.AttributedTo } }
  let r := ob.InReplyTo
  let c := match r with
    | .iri p => { c with Parent := some { Hash := env.getAccountHandle (.iri p) } }
    | _ => c
  let c := if ob.Context ≠ ob.InReplyTo then
      let op := ob.Context
      match op with
      | .iri p => { c with OP := some { Hash := env.getAccountHandle (.iri p) } }
      | _ => c
    else c
  (c, none)

/-- Go `loadFromAPArticle`. -/
def loadFromAPArticle (env : Env) (a : Article) : Item × Option GoError :=
  let r := loadFromAPObject env a.Object
  ({ r.1 with Score := a.Score }, r.2)

/-- Go `loadFromAPItem`. -/
def loadFromAPItem (env : Env) (it : APItem) : Res (Item × Option GoError) :=
  match it.IsLink with
  | none => .panic "nil pointer dereference"
  | some true => .ret (Item.zero, some (GoError.new "unable to load from IRI"))
  | some false =>
    match it with
    | .articlePtr art => .ret (loadFromAPArticle env art)
    | .article art => .ret (loadFromAPArticle env art)
    | .objectPtr ob => .ret (loadFromAPObject env ob)
    | .object ob => .ret (loadFromAPObject env ob)
    | _ => .ret (Item.zero, some (GoError.new "invalid object type"))

/-- Go `loadFromAPLike`. -/
def loadFromAPLike (env : Env) (l : Activity) : Vote × Option GoError :=
  let v : Vote := { Vote.zero with Flags := 0 }
  let v := if l.Object ≠ .nil then
      { v with Item := some { Item.zero with Hash := env.getHashFromAP l.Object } }
    else v
  let v := if l.AttributedTo ≠ .nil then
      { v with SubmittedBy := some { Account.zero with Hash := env.getHashFromAP l.AttributedTo } }
    else v
  let v := if l.Typ = LikeType then { v with Weight := 1 } else v
  let v := if l.Typ = DislikeType then { v with Weight := -1 } else v
  (v, none)

/-- Go `repository.sign`: the request after signing, and the error. -/
def repository.sign (env : Env) (r : repository) (req : Request) :
    Res (Request × Option GoError) :=
  match r.Account with
  | none => .ret (req, none)
  | some acct =>
    if acct.addr = env.AnonymousAccount then .ret (req, none)
    else
      match acct.val.Metadata with
      | none => .panic "nil pointer dereference"
      | some m =>
        match m.Key with
        | none => .panic "nil pointer dereference"
        | some k =>
          let parsed : Option PrivateKey × Option GoError :=
            if k.ID = str "id-rsa" then
              match env.ParsePKCS8PrivateKey k.Private with
              | .ok prv => (some prv, none)
              | .error err => (none, some err)
            else (none, none)
          match parsed.2 with
          | some err => .ret (req, some err)
          | none =>
            if k.ID = str "id-ecdsa" then
              .ret (req, some (GoError.errorf "unsupported private key type %s" [Arg.s k.ID]))
            else
              let p := env.loadAPPerson acct.val
              let signed := env.SignRequest req p parsed.1
              .ret ({ req with Header := signed.1 }, signed.2)

/-- Go `repository.req`. When signing fails the warning that is logged reads
`r.Account.Handle`; the request is returned all the same. -/
def repository.req (env : Env) (r : repository) (method url : ByteSeq) (body : Option ByteSeq) :
    Res (Except GoError Request) :=
  match env.NewRequest method url with
  | some err => .ret (.error err)
  | none =>
    let req : Request := { Method := method, URL := url, Header := [], Body := body }
    let req := { req with
      Header := Header.Set req.Header (str "User-Agent") (env.HostName ++ str "-" ++ env.Version) }
    match r.sign env req with
    | .panic w => .panic w
    | .ret (req, none) => .ret (.ok req)
    | .ret (req, some _) =>
      match r.Account with
      | none => .panic "nil pointer dereference"
      | some _ => .ret (.ok req)

/-- Go `http.DefaultClient.Do(req)`, recording the request. -/
def clientDo (env : Env) (sent : List Request) (req : Request) : Run (Except GoError Response) :=
  ⟨.ret (env.Do sent req), sent ++ [req]⟩

/-- Go `repository.Get`. -/
def repository.Get (env : Env) (r : repository) (sent : List Request) (url : ByteSeq) :
    Run (Except GoError Response) :=
  match r.req env (str "GET") url none with
  | .panic w => ⟨.panic w, sent⟩
  | .ret (.error err) => ⟨.ret (.error err), sent⟩
  | .ret (.ok req) => clientDo env sent req

/-- Go `repository.Post`. -/
def repository.Post (env : Env) (r : repository) (sent : List Request)
    (url contentType : ByteSeq) (body : Option ByteSeq) : Run (Except GoError Response) :=
  match r.req env (str "POST") url body with
  | .panic w => ⟨.panic w, sent⟩
  | .ret (.error err) => ⟨.ret (.error err), sent⟩
  | .ret (.ok req) =>
    clientDo env sent { req with Header := Header.Set req.Header (str "Content-Type") contentType }

/-- Go `repository.Put`. -/
def repository.Put (env : Env) (r : repository) (sent : List Request)
    (url contentType : ByteSeq) (body : Option ByteSeq) : Run (Except GoError Response) :=
  match r.req env (str "PUT") url body with
  | .panic w => ⟨.panic w, sent⟩
  | .ret (.error err) => ⟨.ret (.error err), sent⟩
  | .ret (.ok req) =>
    clientDo env sent { req with Header := Header.Set req.Header (str "Content-Type") contentType }

/-- Go `repository.LoadItem`. The client returns a non-nil response whenever it
returns no error, so the test `resp != nil` holds where it is made. The final
`return it, err` hands back the `err` of `r.Get`, which is nil there. -/
def repository.LoadItem (env : Env) (r : repository) (sent : List Request)
    (f : LoadItemsFilter) : Run (Item × Option GoError) :=
  let it : Item := Item.zero
  let f := { f with MaxItems := 1 }
  let f := { f with AttributedTo := [] }
  let hashes := f.Key
  let f := { f with Key := [] }
  let qs := str ""
  let qs := match env.MarshalString f with
    | .ok q => str "?" ++ q
    | .error _ => qs
  match hashes[0]? with
  | none => ⟨.panic "index out of range [0] with length 0", sent⟩
  | some h0 =>
    let url := str "http://" ++ r.BaseUrl ++ str "/api/outbox/" ++ h0 ++ qs
    match r.Get env sent url with
    | ⟨.panic w, sent1⟩ => ⟨.panic w, sent1⟩
    | ⟨.ret (.error err), sent1⟩ => ⟨.ret (it, some err), sent1⟩
    | ⟨.ret (.ok resp), sent1⟩ =>
      if resp.StatusCode ≠ 200 then
        ⟨.ret (it, some (GoError.errorf "unable to load from the API" [])), sent1⟩
      else
        match resp.Body with
        | .error _ => ⟨.ret (it, none), sent1⟩
        | .ok body =>
          match env.UnmarshalArticle body with
          | .error _ => ⟨.ret (it, none), sent1⟩
          | .ok art => ⟨loadFromAPItem env (.article art), sent1⟩

/-- How the first part of `SaveItem` ends: with an early `return it, err`, or
with the response to the activity it sent. -/
inductive Exchange where
  | failed (it : Item) (err : GoError)
  | answered (art : APItem) (resp : Response)

/-- Go `repository.SaveItem`, up to and including the check of the error of
`r.Put` / `r.Post`: projects the item, builds the Create or Update activity and
sends it. -/
def repository.SaveItem.exchange (env : Env) (r : repository) (sent : List Request)
    (it : Item) : Run Exchange :=
  let art := env.loadAPItem it
  match it.SubmittedBy with
  | none => ⟨.panic "nil pointer dereference", sent⟩
  | some submittedBy =>
    let actor := env.loadAPPerson submittedBy
    match art.GetID with
    | none => ⟨.panic "nil pointer dereference", sent⟩
    | some artID =>
      let built : Bool × Except GoError ByteSeq :=
        if artID.length = 0 then
          let id := str ""
          let create := CreateActivityNew id (.iri actor.ID) art
          (false, env.Marshal create)
        else
          let id := artID
          let update := UpdateActivityNew id (.iri actor.ID) art
          (true, env.Marshal update)
      let doUpd := built.1
      match built.2 with
      | .error err => ⟨.ret (.failed it err), sent⟩
      | .ok body =>
        let answer :=
          if doUpd then
            let url := artID
            r.Put env sent url (str "application/json+activity") (some body)
          else
            let url := str "http://" ++ r.BaseUrl ++ str "/api/accounts/"
              ++ env.HashString submittedBy.Hash ++ str "/outbox"
            r.Post env sent url (str "application/json+activity") (some body)
        match answer with
        | ⟨.panic w, sent1⟩ => ⟨.panic w, sent1⟩
        | ⟨.ret (.error err), sent1⟩ => ⟨.ret (.failed it err), sent1⟩
        | ⟨.ret (.ok resp), sent1⟩ => ⟨.ret (.answered art resp), sent1⟩

/-- Go `repository.SaveItem`, from the first test of `resp.StatusCode` on. When the
assertion `art.(Article)` fails, `a` is the zero `Article`. -/
def repository.SaveItem.answer (env : Env) (r : repository) (sent : List Request)
    (art : APItem) (resp : Response) : Run (Item × Option GoError) :=
  if resp.StatusCode = 201 then
    let newLoc := Header.Get resp.Header (str "Location")
    let hash := pathBase newLoc
    let filt := { LoadItemsFilter.zero with Key := [hash] }
    r.LoadItem env sent filt
  else if resp.StatusCode = 200 then
    match art with
    | .article a => ⟨loadFromAPItem env (.article a), sent⟩
    | _ =>
      let a := Article.zero
      let hash := pathBase a.Object.ID
      let filt := { LoadItemsFilter.zero with Key := [hash] }
      r.LoadItem env sent filt
  else if resp.StatusCode = 404 then
    ⟨.ret (Item.zero, some (GoError.errorf "%s" [Arg.s resp.Status])), sent⟩
  else if resp.StatusCode = 405 then
    ⟨.ret (Item.zero, some (GoError.errorf "%s" [Arg.s resp.Status])), sent⟩
  else if resp.StatusCode = 500 then
    ⟨.ret (Item.zero, some (GoError.errorf "unable to save item %s" [Arg.s resp.Status])), sent⟩
  else
    ⟨.ret (Item.zero,
      some (GoError.errorf "unknown error, received status %d" [Arg.d resp.StatusCode])), sent⟩

/-- Go `repository.SaveItem`. -/
def repository.SaveItem (env : Env) (r : repository) (sent : List Request) (it : Item) :
    Run (Item × Option GoError) :=
  match repository.SaveItem.exchange env r sent it with
  | ⟨.panic w, sent1⟩ => ⟨.panic w, sent1⟩
  | ⟨.ret (.failed it1 err), sent1⟩ => ⟨.ret (it1, some err), sent1⟩
  | ⟨.ret (.answered art resp), sent1⟩ => repository.SaveItem.answer env r sent1 art resp

/-- Go `loadFromAPPerson`. -/
def loadFromAPPerson (env : Env) (p : Person) : Account × Option GoError :=
  let name := jsonUnescape env (env.First p.Name)
  let a : Account :=
    { Hash := env.getHashFromAP (.person p)
      Handle := name
      Email := str ""
      Metadata := some { Key := some { ID := str "", Private := [], Public := p.PublicKeyPem } }
      Score := p.Score
      Flags := FlagsNone }
  (a, none)

/-- Go `repository.Head`. -/
def repository.Head (env : Env) (r : repository) (sent : List Request) (url : ByteSeq) :
    Run (Except GoError Response) :=
  match r.req env (str "HEAD") url none with
  | .panic w => ⟨.panic w, sent⟩
  | .ret (.error err) => ⟨.ret (.error err), sent⟩
  | .ret (.ok req) => clientDo env sent req

/-- Go `repository.Delete`. -/
def repository.Delete (env : Env) (r : repository) (sent : List Request)
    (url contentType : ByteSeq) (body : Option ByteSeq) : Run (Except GoError Response) :=
  match r.req env (str "DELETE") url body with
  | .panic w => ⟨.panic w, sent⟩
  | .ret (.error err) => ⟨.ret (.error err), sent⟩
  | .ret (.ok req) =>
    clientDo env sent { req with Header := Header.Set req.Header (str "Content-Type") contentType }

/-- Go `repository.LoadItems`, up to and including the decoding of the body: the
decoded collection, or the error of an early `return nil, err`. As in
`LoadItem`, the test `resp != nil` holds where it is made. -/
def repository.LoadItems.fetch (env : Env) (r : repository) (sent : List Request)
    (f : LoadItemsFilter) : Run (Except GoError OrderedCollection) :=
  let qs := str ""
  let qs := match env.MarshalString f with
    | .ok q => str "?" ++ q
    | .error _ => qs
  let url := str "http://" ++ r.BaseUrl ++ str "/api/outbox"
  match r.Get env sent (url ++ qs) with
  | ⟨.panic w, sent1⟩ => ⟨.panic w, sent1⟩
  | ⟨.ret (.error err), sent1⟩ => ⟨.ret (.error err), sent1⟩
  | ⟨.ret (.ok resp), sent1⟩ =>
    if resp.StatusCode ≠ 200 then
      ⟨.ret (.error (GoError.errorf "unable to load from the API" [])), sent1⟩
    else
      match resp.Body with
      | .error err => ⟨.ret (.error err), sent1⟩
      | .ok body =>
        match env.UnmarshalCollection url body with
        | .error err => ⟨.ret (.error err), sent1⟩
        | .ok col => ⟨.ret (.ok col), sent1⟩

/-- The loop `for k, it := range col.OrderedItems { items[k], _ = loadFromAPItem(it) }`,
from index `k` on. -/
def repository.LoadItems.fill (env : Env) : List CollItem → Nat → List Item → Res (List Item)
  | [], _, items => .ret items
  | it :: rest, k, items =>
    match loadFromAPItem env it.asItem with
    | .panic w => .panic w
    | .ret v =>
      if k < items.length then repository.LoadItems.fill env rest (k + 1) (items.set k v.1)
      else .panic "index out of range"

/-- Go `repository.LoadItems`, from `make(models.ItemCollection, col.TotalItems)` on;
`make` panics when the declared total is beyond what it can allocate. -/
def repository.LoadItems.collect (env : Env) (col : OrderedCollection) : Res (List Item) :=
  if col.TotalItems ≤ env.MaxSliceLen then
    let items := List.replicate col.TotalItems Item.zero
    repository.LoadItems.fill env col.OrderedItems 0 items
  else .panic "makeslice: len out of range"

/-- Go `repository.LoadItems`; a nil collection is `none`. -/
def repository.LoadItems (env : Env) (r : repository) (sent : List Request)
    (f : LoadItemsFilter) : Run (Option (List Item) × Option GoError) :=
  match repository.LoadItems.fetch env r sent f with
  | ⟨.panic w, sent1⟩ => ⟨.panic w, sent1⟩
  | ⟨.ret (.error err), sent1⟩ => ⟨.ret (none, some err), sent1⟩
  | ⟨.ret (.ok col), sent1⟩ =>
    match repository.LoadItems.collect env col with
    | .panic w => ⟨.panic w, sent1⟩
    | .ret items => ⟨.ret (some items, none), sent1⟩

/-- Go `repository.LoadVotes`, up to and including the decoding of the body. -/
def repository.LoadVotes.fetch (env : Env) (r : repository) (sent : List Request)
    (f : LoadVotesFilter) : Run (Except GoError OrderedCollection) :=
  match env.MarshalVotesString f with
  | .error err => ⟨.ret (.error err), sent⟩
  | .ok qs =>
    let qs := if qs.length > 0 then str "?" ++ qs else qs
    let url := str "http://" ++ r.BaseUrl ++ str "/api/liked"
    match r.Get env sent (url ++ qs) with
    | ⟨.panic w, sent1⟩ => ⟨.panic w, sent1⟩
    | ⟨.ret (.error err), sent1⟩ => ⟨.ret (.error err), sent1⟩
    | ⟨.ret (.ok resp), sent1⟩ =>
      if resp.StatusCode ≠ 200 then
        ⟨.ret (.error (GoError.errorf "unable to load from the API" [])), sent1⟩
      else
        match resp.Body with
        | .error err => ⟨.ret (.error err), sent1⟩
        | .ok body =>
          match env.UnmarshalCollection url body with
          | .error err => ⟨.ret (.error err), sent1⟩
          | .ok col => ⟨.ret (.ok col), sent1⟩

/-- The body shared by the three typed branches of the loop of `LoadVotes`:
`vot, _ := loadFromAPLike(...)` and `items[vot.Item.Hash] = vot`. -/
def repository.LoadVotes.store (env : Env) (like : Activity) (items : VoteCollection) :
    Res VoteCollection :=
  let vot := (loadFromAPLike env like).1
  match vot.Item with
  | none => .panic "nil pointer dereference"
  | some i => .ret (items.assign i.Hash vot)

/-- The loop `for _, it := range col.OrderedItems` of `LoadVotes`. -/
def repository.LoadVotes.fill (env : Env) : List CollItem → VoteCollection → Res VoteCollection
  | [], items => .ret items
  | it :: rest, items =>
    match it with
    | .like like =>
      match repository.LoadVotes.store env like items with
      | .panic w => .panic w
      | .ret items1 => repository.LoadVotes.fill env rest items1
    | .dislike like =>
      match repository.LoadVotes.store env like items with
      | .panic w => .panic w
      | .ret items1 => repository.LoadVotes.fill env rest items1
    | .activity act =>
      match repository.LoadVotes.store env act items with
      | .panic w => .panic w
      | .ret items1 => repository.LoadVotes.fill env rest items1
    | .item _ => repository.LoadVotes.fill env rest items

/-- Go `repository.LoadVotes`; a nil collection is `none`. -/
def repository.LoadVotes (env : Env) (r : repository) (sent : List Request)
    (f : LoadVotesFilter) : Run (Option VoteCollection × Option GoError) :=
  match repository.LoadVotes.fetch env r sent f with
  | ⟨.panic w, sent1⟩ => ⟨.panic w, sent1⟩
  | ⟨.ret (.error err), sent1⟩ => ⟨.ret (none, some err), sent1⟩
  | ⟨.ret (.ok col), sent1⟩ =>
    let items : VoteCollection := []
    match repository.LoadVotes.fill env col.OrderedItems items with
    | .panic w => ⟨.panic w, sent1⟩
    | .ret items1 => ⟨.ret (some items1, none), sent1⟩

/-- Go `repository.LoadVote`. -/
def repository.LoadVote (env : Env) (r : repository) (sent : List Request)
    (f : LoadVotesFilter) : Run (Vote × Option GoError) :=
  if f.ItemKey.length = 0 then ⟨.ret (Vote.zero, some (GoError.new "invalid item hash")), sent⟩
  else
    match f.ItemKey[0]? with
    | none => ⟨.panic "index out of range [0] with length 0", sent⟩
    | some itemHash =>
      let url := str "http://" ++ r.BaseUrl ++ str "/api/liked/" ++ itemHash
      match r.Get env sent url with
      | ⟨.panic w, sent1⟩ => ⟨.panic w, sent1⟩
      | ⟨.ret (.error err), sent1⟩ => ⟨.ret (Vote.zero, some err), sent1⟩
      | ⟨.ret (.ok resp), sent1⟩ =>
        if resp.StatusCode ≠ 200 then
          ⟨.ret (Vote.zero, some (GoError.new "unable to load from the API")), sent1⟩
        else
          match resp.Body with
          | .error err => ⟨.ret (Vote.zero, some err), sent1⟩
          | .ok body =>
            match env.UnmarshalActivity body with
            | .error err => ⟨.ret (Vote.zero, some err), sent1⟩
            | .ok like => ⟨.ret (loadFromAPLike env like), sent1⟩

/-! ## app/frontend/login.go

Here the arguments of the log statements are kept where evaluating them can
panic: `err.Error()` on a nil `error`. -/

/-- Go `app.AccountMetadata`: the fields `login.go` reads. -/
structure app.AccountMetadata where
  Password : ByteSeq
  Salt : ByteSeq
deriving DecidableEq

/-- Go `app.Account`: the fields `login.go` reads; `Metadata` is a pointer. -/
structure app.Account where
  Hash : ByteSeq
  Handle : ByteSeq
  Metadata : Option app.AccountMetadata
deriving DecidableEq

/-- Go `sessionAccount`, the value stored in the session. -/
structure sessionAccount where
  Handle : ByteSeq
  Hash : ByteSeq
deriving DecidableEq

/-- What `login.go` takes from outside: `LoadAccount handle` is
`db.Config.LoadAccount` on the filter with that one handle,
`CompareHashAndPassword` is the one of `bcrypt`, and `SessionGet` is the error
of `sessionStore.Get`. -/
structure LoginEnv where
  LoadAccount : ByteSeq → app.Account × Option GoError
  CompareHashAndPassword : ByteSeq → ByteSeq → Option GoError
  SessionGet : Option GoError

/-- What `HandleLogin` has done when it returns: the status it answered with,
the error it gave to `HandleError`, the target of `Redirect`, and the value it
stored in the session. -/
structure LoginAnswer where
  status : Int
  err : Option GoError
  location : Option ByteSeq
  session : Option sessionAccount
deriving DecidableEq

/-- The call `err.Error()` on a value of type `error`: a nil `error` has no
method to call. -/
def errError (err : Option GoError) : Res (Option ByteSeq) :=
  match err with
  | none => .panic "nil pointer dereference"
  | some e => .ret e.Error

/-- Go `HandleLogin`, for the posted form values `pw` and `handle`. -/
def HandleLogin (env : LoginEnv) (pw handle : ByteSeq) : Res LoginAnswer :=
  let loaded := env.LoadAccount handle
  let a := loaded.1
  let err := loaded.2
  if err ≠ none then
    match errError err with
    | .panic w => .panic w
    | .ret _ =>
      .ret { status := 403, err := some (GoError.errorf "handle or password are wrong" []),
             location := none, session := none }
  else
    let m := a.Metadata
    match m with
    | none =>
      match errError err with
      | .panic w => .panic w
      | .ret _ =>
        .ret { status := 403, err := some (GoError.errorf "invalid account metadata" []),
               location := none, session := none }
    | some m =>
      let salt := m.Salt
      let saltyPw := pw
      let saltyPw := saltyPw ++ salt
      let err := env.CompareHashAndPassword m.Password saltyPw
      if err ≠ none then
        match errError err with
        | .panic w => .panic w
        | .ret _ =>
          .ret { status := 403, err := some (GoError.errorf "handle or password are wrong" []),
                 location := none, session := none }
      else
        let backUrl := str "/"
        match env.SessionGet with
        | none =>
          .ret { status := 303, err := none, location := some backUrl,
                 session := some { Handle := a.Handle, Hash := a.Hash } }
        | some e =>
          match errError (some e) with
          | .panic w => .panic w
          | .ret _ => .ret { status := 303, err := none, location := some backUrl, session := none }

/-! ## Concrete inputs

A small world on which the definitions above can be run. -/

/-- A stand-in for `sha256.Sum256`: 32 bytes computed from the first 32 bytes of the input. -/
def sampleSum256 (d : ByteSeq) : Digest :=
  ⟨(List.range 32).map fun i => d.getD i 0 + UInt8.ofNat i, by simp⟩

/-- A reply written by account 7, one level below a root item. -/
def sampleItem : item :=
  { Id := 1, Key := Key.zero, Title := str "re", MimeType := str "text/plain", Data := str "hello",
    Score := 0, SubmittedAt := ⟨63676933200, 0⟩, SubmittedBy := 7, UpdatedAt := ⟨63676933200, 5⟩,
    Flags := 0, Metadata := [], Path := some (str "aa.bb"), fullPath := [], parentLink := [] }

/-- The answer to a save request: the given status, a status line that starts
with it, and a `Location` header. -/
def sampleResponse (status : Int) : Response :=
  { Status := fmtInt status ++ str " status", StatusCode := status,
    Header := [(str "Location", str "/outbox/abc123")], Body := .ok [] }

/-- An environment in which every request can be built, signing adds a header,
a `GET` is answered `200 OK` and any other request is answered with `status`
and a `Location` header. -/
def sampleEnv (status : Int) : Env :=
  { HostName := str "littr.me"
    Version := str "0.1"
    AnonymousAccount := 0
    NewRequest := fun _ _ => none
    Do := fun _ req =>
      if req.Method = str "GET" then
        .ok { Status := str "200 OK", StatusCode := 200, Header := [], Body := .ok (str "abc123") }
      else .ok (sampleResponse status)
    ParsePKCS8PrivateKey := fun b => .ok ⟨b⟩
    SignRequest := fun req _ _ => (Header.Set req.Header (str "Signature") (str "sig"), none)
    loadAPPerson := fun a =>
      { ID := str "http://littr.me/api/accounts/" ++ a.Hash, Name := [([], a.Handle)],
        PublicKeyPem := [], Score := a.Score }
    loadAPItem := fun it =>
      .article
        { Object := { APObject.zero with
            ID := if it.Hash = [] then [] else str "http://littr.me/api/outbox/" ++ it.Hash
            Name := [([], it.Title)], Content := [([], it.Data)], MediaType := it.MimeType }
          Score := it.Score }
    getHashFromAP := fun i => pathBase (i.GetID.getD [])
    getAccountHandle := fun r =>
      match r with
      | .iri v => pathBase v
      | _ => []
    HashString := fun h => h
    Marshal := fun a => .ok (a.Typ ++ str " " ++ a.Object.GetID.getD [])
    UnmarshalArticle := fun b => .ok { Article.zero with Object := { APObject.zero with ID := b } }
    MarshalString := fun _ => .ok []
    Unescape := fun s => .ok s
    First := fun n =>
      match n with
      | [] => []
      | x :: _ => x.2
    UnmarshalCollection := fun url body =>
      .ok { ID := url, TotalItems := 1,
            OrderedItems := [.item (.articlePtr
              { Article.zero with Object := { APObject.zero with ID := body } })] }
    UnmarshalActivity := fun body =>
      .ok { ID := [], Typ := LikeType, Actor := .nil, Object := .iri body, AttributedTo := .nil }
    MarshalVotesString := fun _ => .ok []
    MaxSliceLen := 4294967295 }

/-- A repository acting for no account. -/
def sampleRepository : repository := { BaseUrl := str "littr.me", Account := none }

/-- The author of the sample items. -/
def sampleAuthor : Account := { Account.zero with Hash := str "f00d", Handle := str "alice" }

/-- An item that has no remote identifier yet. -/
def sampleNewItem : Item :=
  { Item.zero with Title := str "t", Data := str "d", SubmittedBy := some sampleAuthor }

/-- An item that is already known remotely. -/
def sampleKnownItem : Item := { sampleNewItem with Hash := str "abc123" }

/-- The request by which `sampleNewItem` is saved. -/
def sampleSaveRequest : Request :=
  { Method := str "POST"
    URL := str "http://littr.me/api/accounts/f00d/outbox"
    Header := [(str "Content-Type", str "application/json+activity"),
      (str "User-Agent", str "littr.me-0.1")]
    Body := some (str "Create ") }

/-- A Like of an item. -/
def sampleLike : Activity :=
  { ID := [], Typ := LikeType, Actor := .iri (str "http://littr.me/api/accounts/f00d"),
    Object := .iri (str "http://littr.me/api/outbox/abc123"), AttributedTo := .nil }

/-- A Dislike of the same item. -/
def sampleDislike : Activity := { sampleLike with Typ := DislikeType }

/-- An activity that is neither a Like nor a Dislike. -/
def sampleCreate : Activity := { sampleLike with Typ := CreateType }

/-- An entry that translates: a pointer to an article with the given identifier. -/
def sampleArticleEntry (id : ByteSeq) : CollItem :=
  .item (.articlePtr { Article.zero with Object := { APObject.zero with ID := id } })

/-- The environment `sampleEnv 200` in which every collection body decodes to `col`. -/
def sampleEnvWith (col : OrderedCollection) : Env :=
  { sampleEnv 200 with UnmarshalCollection := fun _ _ => .ok col }

/-- A collection that declares 3 items and has 3 entries, the second one a link. -/
def sampleMixedCollection : OrderedCollection :=
  { ID := [], TotalItems := 3,
    OrderedItems := [sampleArticleEntry (str "/outbox/a1"), .item (.iri (str "http://x/y")),
      sampleArticleEntry (str "/outbox/a2")] }

/-- A collection that declares 3 items and has 2 entries, both of which translate. -/
def sampleShortCollection : OrderedCollection :=
  { ID := [], TotalItems := 3,
    OrderedItems := [sampleArticleEntry (str "/outbox/a1"), sampleArticleEntry (str "/outbox/a2")] }

/-- A collection that declares no item and has one entry, as a document without
`totalItems` decodes. -/
def sampleUndeclaredCollection : OrderedCollection :=
  { ID := [], TotalItems := 0, OrderedItems := [sampleArticleEntry (str "/outbox/a1")] }

/-- A collection of two Likes, the first without an object. -/
def sampleVotesCollection : OrderedCollection :=
  { ID := [], TotalItems := 2,
    OrderedItems := [.like { sampleLike with Object := .nil }, .like sampleLike] }

/-- The environment `sampleEnv 200` in which no body decodes to an article. -/
def sampleUndecodableEnv : Env :=
  { sampleEnv 200 with UnmarshalArticle := fun _ => .error (GoError.lib (str "unexpected end of JSON input")) }

/-- The environment `sampleEnv 200` in which the body of the answer cannot be read. -/
def sampleUnreadableEnv : Env :=
  { sampleEnv 200 with
    Do := fun _ _ =>
      .ok { Status := str "200 OK", StatusCode := 200, Header := [],
            Body := .error (GoError.lib (str "unexpected EOF")) } }

/-- A person as decoded from an actor document. -/
def samplePerson : Person :=
  { ID := str "http://littr.me/api/accounts/f00d", Name := [([], str "alice")],
    PublicKeyPem := str "PEM", Score := 0 }

/-- A repository acting for an account that was loaded through the API, at address 1. -/
def sampleLoadedRepository : repository :=
  { BaseUrl := str "littr.me",
    Account := some ⟨1, (loadFromAPPerson (sampleEnv 200) samplePerson).1⟩ }

/-- A repository acting for an account whose key is an ECDSA key, at address 2. -/
def sampleEcdsaRepository : repository :=
  { BaseUrl := str "littr.me",
    Account := some ⟨2, { sampleAuthor with
      Metadata := some { Key := some { ID := str "id-ecdsa", Private := str "k", Public := [] } } }⟩ }

/-- The request `GET http://littr.me/api/outbox/abc123` before signing. -/
def sampleGetRequest : Request :=
  { Method := str "GET", URL := str "http://littr.me/api/outbox/abc123",
    Header := [(str "User-Agent", str "littr.me-0.1")], Body := none }

/-- An item with data `1` and timestamp 23 ns after the Unix epoch. -/
def sampleItemA : item :=
  { sampleItem with Data := str "1", UpdatedAt := ⟨62135596800, 23⟩ }

/-- An item with data `12` and timestamp 3 ns after the Unix epoch. -/
def sampleItemB : item :=
  { sampleItem with Data := str "12", UpdatedAt := ⟨62135596800, 3⟩ }

/-- A login world in which every handle has an account with the given metadata,
the password `secret` (salted) is the right one and the session can be opened. -/
def sampleLoginEnv (m : Option app.AccountMetadata) : LoginEnv :=
  { LoadAccount := fun handle => ({ Hash := str "f00d", Handle := handle, Metadata := m }, none)
    CompareHashAndPassword := fun hashed pw =>
      if hashed = pw then none else some (GoError.lib (str "hashedPassword is not the hash"))
    SessionGet := none }

/-- The environment `sampleEnv status` in which the answer to a save request
carries the status line `line`. -/
def sampleEnvStatusLine (status : Int) (line : ByteSeq) : Env :=
  { sampleEnv status with
    Do := fun _ _ => .ok { sampleResponse status with Status := line } }

/-- A collection that declares more items than `make` can allocate and has no entry. -/
def sampleHugeCollection : OrderedCollection :=
  { ID := [], TotalItems := 9223372036854775808, OrderedItems := [] }

/-- A repository acting for an account without metadata, at address 3. -/
def sampleNoMetadataRepository : repository :=
  { BaseUrl := str "littr.me", Account := some ⟨3, sampleAuthor⟩ }

/-! ## Theorems -/

theorem runeWidth_ascii (b : UInt8) (rest : ByteSeq) (h : b.toNat < 0x80) :
    runeWidth (b :: rest) = 1 := by
  simp [runeWidth, h]

theorem runeStartsFrom_ascii (s : ByteSeq) :
    ∀ (fuel i : Nat), s.length ≤ fuel → (∀ b ∈ s, b.toNat < 0x80) →
      runeStartsFrom fuel i s = List.range' i s.length := by
  induction s with
  | nil =>
    intro fuel i _ _
    cases fuel <;> simp [runeStartsFrom]
  | cons b rest ih =>
    intro fuel i hf hb
    cases fuel with
    | zero => simp at hf
    | succ fuel =>
      have hb0 : b.toNat < 0x80 := hb b (by simp)
      have hrest : ∀ x ∈ rest, x.toNat < 0x80 := fun x hx => hb x (by simp [hx])
      have hlen : rest.length ≤ fuel := by simpa using hf
      simp only [runeStartsFrom, runeWidth_ascii b rest hb0, List.drop_succ_cons, List.drop_zero,
        List.length_cons]
      rw [ih fuel (i + 1) hlen hrest]
      simp [List.range'_succ]

theorem runeStarts_ascii (s : ByteSeq) (h : ∀ b ∈ s, b.toNat < 0x80) :
    runeStarts s = List.range s.length := by
  unfold runeStarts
  rw [runeStartsFrom_ascii s s.length 0 (le_refl _) h, List.range_eq_range']

theorem Key.assign_spec (s : ByteSeq) :
    ∀ (idx : List Nat) (k : Key), (∀ i ∈ idx, i < 64 ∧ i < s.length) →
      ∃ k1 : Key, Key.assign s idx k = Res.ret k1 ∧
        ∀ j : Nat, k1.bytes[j]? = if j ∈ idx then s[j]? else k.bytes[j]? := by
  intro idx
  induction idx with
  | nil => intro k _; exact ⟨k, rfl, by simp⟩
  | cons i idx ih =>
    intro k h
    have hi := h i (by simp)
    have hs : s[i]? = some s[i] := List.getElem?_eq_getElem hi.2
    obtain ⟨k1, hk1, hget⟩ := ih ⟨k.bytes.set i s[i], by simp [k.size_eq]⟩
      (fun j hj => h j (by simp [hj]))
    refine ⟨k1, ?_, ?_⟩
    · simp only [Key.assign, hs, hi.1, dite_true]
      exact hk1
    · intro j
      rw [hget j]
      by_cases hj : j ∈ idx
      · simp [hj]
      · by_cases hji : j = i
        · subst hji
          simp [hj, List.getElem?_set, k.size_eq, hi.1, hs]
        · have : i ≠ j := fun e => hji e.symm
          simp [hj, hji, List.getElem?_set, this]

theorem Key.assign_range (s : ByteSeq) (k : Key) (hs : s.length = 64) :
    Key.assign s (List.range s.length) k = Res.ret ⟨s, hs⟩ := by
  obtain ⟨k1, hk1, hget⟩ := Key.assign_spec s (List.range s.length) k
    (fun i hi => by rw [List.mem_range] at hi; omega)
  rw [hk1]
  congr 1
  have : k1.bytes = s := by
    apply List.ext_getElem?
    intro j
    rw [hget j]
    by_cases hj : j < s.length
    · simp [hj]
    · have h1 : s[j]? = none := by simp; omega
      have h2 : k.bytes[j]? = none := by simp [k.size_eq]; omega
      simp [hj, h1, h2]
  cases k1
  simp_all

theorem hexDigit_mem (n : Nat) (h : n < 16) : hexDigit n ∈ str "0123456789abcdef" := by
  interval_cases n <;> decide

theorem hexDigit_ascii (n : Nat) (h : n < 16) : (hexDigit n).toNat < 0x80 := by
  interval_cases n <;> decide

theorem hexDigit_inj : ∀ n < 16, ∀ m < 16, hexDigit n = hexDigit m → n = m := by
  decide

theorem fmtHex_length (bs : ByteSeq) : (fmtHex bs).length = 2 * bs.length := by
  induction bs with
  | nil => rfl
  | cons b bs ih =>
    have : fmtHex (b :: bs) = hexDigit (b.toNat / 16) :: hexDigit (b.toNat % 16) :: fmtHex bs := by
      simp [fmtHex]
    rw [this]; simp [ih]; omega

theorem fmtHex_cons (b : UInt8) (bs : ByteSeq) :
    fmtHex (b :: bs) = hexDigit (b.toNat / 16) :: hexDigit (b.toNat % 16) :: fmtHex bs := by
  simp [fmtHex]

theorem byte_toNat_lt (b : UInt8) : b.toNat < 256 := b.val.isLt

theorem fmtHex_mem (bs : ByteSeq) : ∀ x ∈ fmtHex bs, x ∈ str "0123456789abcdef" := by
  induction bs with
  | nil => intro x hx; simp [fmtHex] at hx
  | cons b bs ih =>
    intro x hx
    rw [fmtHex_cons] at hx
    have hb := byte_toNat_lt b
    rcases List.mem_cons.1 hx with h | hx
    · rw [h]; exact hexDigit_mem _ (by omega)
    rcases List.mem_cons.1 hx with h | hx
    · rw [h]; exact hexDigit_mem _ (by omega)
    · exact ih x hx

theorem fmtHex_ascii (bs : ByteSeq) : ∀ x ∈ fmtHex bs, x.toNat < 0x80 := by
  induction bs with
  | nil => intro x hx; simp [fmtHex] at hx
  | cons b bs ih =>
    intro x hx
    rw [fmtHex_cons] at hx
    have hb := byte_toNat_lt b
    rcases List.mem_cons.1 hx with h | hx
    · rw [h]; exact hexDigit_ascii _ (by omega)
    rcases List.mem_cons.1 hx with h | hx
    · rw [h]; exact hexDigit_ascii _ (by omega)
    · exact ih x hx

theorem fmtHex_injective : ∀ (xs ys : ByteSeq), fmtHex xs = fmtHex ys → xs = ys := by
  intro xs
  induction xs with
  | nil =>
    intro ys h
    cases ys with
    | nil => rfl
    | cons y ys => rw [fmtHex_cons] at h; simp [fmtHex] at h
  | cons x xs ih =>
    intro ys h
    cases ys with
    | nil => rw [fmtHex_cons] at h; simp [fmtHex] at h
    | cons y ys =>
      rw [fmtHex_cons, fmtHex_cons] at h
      simp only [List.cons.injEq] at h
      obtain ⟨h1, h2, h3⟩ := h
      have hx := byte_toNat_lt x
      have hy := byte_toNat_lt y
      have e1 := hexDigit_inj _ (by omega) _ (by omega) h1
      have e2 := hexDigit_inj _ (by omega) _ (by omega) h2
      have : x.toNat = y.toNat := by omega
      have hxy : x = y := UInt8.toNat.inj this
      rw [hxy, ih ys h3]

theorem Key.FromString_hex (k : Key) (d : Digest) :
    k.FromString (fmtHex d.bytes) =
      Res.ret (⟨fmtHex d.bytes, by rw [fmtHex_length, d.size_eq]⟩, none) := by
  have hlen : (fmtHex d.bytes).length = 64 := by rw [fmtHex_length, d.size_eq]
  unfold Key.FromString
  rw [runeStarts_ascii _ (fmtHex_ascii d.bytes), Key.assign_range _ k hlen]
  simp [Res.map, hlen]

theorem digitByte_toNat (d : Nat) (h : d < 10) : (digitByte d).toNat = 48 + d := by
  unfold digitByte
  exact UInt8.toNat_ofNat_of_lt (by simp [UInt8.size]; omega)

theorem decDigits_value : ∀ (fuel n : Nat), n < fuel →
    (decDigits fuel n).foldl (fun acc b => acc * 10 + (b.toNat - 48)) 0 = n := by
  intro fuel
  induction fuel with
  | zero => intro n h; omega
  | succ fuel ih =>
    intro n h
    unfold decDigits
    by_cases hn : n < 10
    · simp [hn, digitByte_toNat n hn]
    · have hlt : n / 10 < fuel := by omega
      simp only [hn, if_false, List.foldl_append, List.foldl_cons, List.foldl_nil, ih (n / 10) hlt]
      rw [digitByte_toNat (n % 10) (by omega)]
      omega

theorem decDigits_ge : ∀ (fuel n : Nat), ∀ b ∈ decDigits fuel n, 48 ≤ b.toNat := by
  intro fuel
  induction fuel with
  | zero => intro n b hb; simp [decDigits] at hb
  | succ fuel ih =>
    intro n b hb
    unfold decDigits at hb
    by_cases hn : n < 10
    · simp only [hn, if_true, List.mem_singleton] at hb
      rw [hb, digitByte_toNat n hn]; omega
    · simp only [hn, if_false, List.mem_append, List.mem_singleton] at hb
      rcases hb with hb | hb
      · exact ih _ b hb
      · rw [hb, digitByte_toNat _ (by omega)]; omega

theorem fmtNat_injective (n m : Nat) (h : fmtNat n = fmtNat m) : n = m := by
  have hn := decDigits_value (n + 1) n (by omega)
  have hm := decDigits_value (m + 1) m (by omega)
  unfold fmtNat at h
  rw [h] at hn
  omega

theorem fmtNat_ne_minus (n : Nat) (rest : ByteSeq) : fmtNat n ≠ 45 :: rest := by
  intro h
  have := decDigits_ge (n + 1) n 45 (by unfold fmtNat at h; rw [h]; simp)
  revert this
  decide

theorem fmtInt_injective (i j : Int) (h : fmtInt i = fmtInt j) : i = j := by
  unfold fmtInt at h
  by_cases hi : i < 0 <;> by_cases hj : j < 0
  · simp only [hi, hj, if_true, List.cons.injEq, true_and] at h
    have := fmtNat_injective _ _ h
    omega
  · simp only [hi, hj, if_true, if_false] at h
    exact absurd h.symm (fmtNat_ne_minus _ _)
  · simp only [hi, hj, if_true, if_false] at h
    exact absurd h (fmtNat_ne_minus _ _)
  · simp only [hi, hj, if_false] at h
    have := fmtNat_injective _ _ h
    omega

theorem keyInput_eq (clock : Time) (c : item) (h : c.UpdatedAt.IsZero = false) :
    c.keyInput clock =
      c.Data ++ fmtInt c.UpdatedAt.UnixNano ++ sliceBytes c.Path ++ fmtInt c.SubmittedBy := by
  simp [item.keyInput, h]

theorem GetKey_eq (sum256 : ByteSeq → Digest) (clock : Time) (c : item) :
    c.GetKey sum256 clock =
      Res.ret (⟨fmtHex (sum256 (c.keyInput clock)).bytes,
          by rw [fmtHex_length, (sum256 (c.keyInput clock)).size_eq]⟩,
        { c with Key := ⟨fmtHex (sum256 (c.keyInput clock)).bytes,
          by rw [fmtHex_length, (sum256 (c.keyInput clock)).size_eq]⟩ }) := by
  unfold item.GetKey
  rw [Key.FromString_hex]
  rfl

/-- C1. For an item whose `UpdatedAt` is not the zero time, `GetKey` returns, and
stores in `Key`, the 64 lowercase hexadecimal characters of the digest of
`Data ++ decimal(UpdatedAt.UnixNano) ++ Path ++ decimal(SubmittedBy)`; any item
that agrees on these four inputs gets the same key, whatever its other fields
and whatever the clock reads. -/
theorem GetKey_is_hex_digest (sum256 : ByteSeq → Digest) (clock : Time) (c : item)
    (h : c.UpdatedAt.IsZero = false) :
    ∃ k : Key,
      c.GetKey sum256 clock = Res.ret (k, { c with Key := k }) ∧
      k.bytes = fmtHex (sum256 (c.Data ++ fmtInt c.UpdatedAt.UnixNano ++ sliceBytes c.Path
        ++ fmtInt c.SubmittedBy)).bytes ∧
      k.bytes.length = 64 ∧
      (∀ b ∈ k.bytes, b ∈ str "0123456789abcdef") ∧
      ∀ (c2 : item) (clock2 : Time), c2.UpdatedAt.IsZero = false →
        c2.Data = c.Data → c2.UpdatedAt.UnixNano = c.UpdatedAt.UnixNano →
        sliceBytes c2.Path = sliceBytes c.Path → c2.SubmittedBy = c.SubmittedBy →
        (c2.GetKey sum256 clock2).map Prod.fst = Res.ret k := by
  refine ⟨_, GetKey_eq sum256 clock c, ?_, ?_, ?_, ?_⟩
  · simp only [keyInput_eq clock c h]
  · exact Key.size_eq _
  · exact fmtHex_mem _
  · intro c2 clock2 h2 hd hn hp hs
    rw [GetKey_eq sum256 clock2 c2]
    simp only [Res.map, keyInput_eq clock c h, keyInput_eq clock2 c2 h2, hd, hn, hp, hs]

/-- C2. Two items with non-zero `UpdatedAt` that differ in exactly one of `Data`,
`UpdatedAt.UnixNano`, `Path` (as bytes) and `SubmittedBy` hand different byte
strings to the digest function; so their keys are equal only if the digest
function maps these two different inputs to the same digest. -/
theorem keyInput_differs_on_single_change (sum256 : ByteSeq → Digest) (clockA clockB : Time)
    (a b : item) (ha : a.UpdatedAt.IsZero = false) (hb : b.UpdatedAt.IsZero = false)
    (hdiff :
      (a.Data ≠ b.Data ∧ a.UpdatedAt.UnixNano = b.UpdatedAt.UnixNano ∧
        sliceBytes a.Path = sliceBytes b.Path ∧ a.SubmittedBy = b.SubmittedBy) ∨
      (a.Data = b.Data ∧ a.UpdatedAt.UnixNano ≠ b.UpdatedAt.UnixNano ∧
        sliceBytes a.Path = sliceBytes b.Path ∧ a.SubmittedBy = b.SubmittedBy) ∨
      (a.Data = b.Data ∧ a.UpdatedAt.UnixNano = b.UpdatedAt.UnixNano ∧
        sliceBytes a.Path ≠ sliceBytes b.Path ∧ a.SubmittedBy = b.SubmittedBy) ∨
      (a.Data = b.Data ∧ a.UpdatedAt.UnixNano = b.UpdatedAt.UnixNano ∧
        sliceBytes a.Path = sliceBytes b.Path ∧ a.SubmittedBy ≠ b.SubmittedBy)) :
    a.keyInput clockA ≠ b.keyInput clockB ∧
    ((a.GetKey sum256 clockA).map Prod.fst = (b.GetKey sum256 clockB).map Prod.fst →
      sum256 (a.keyInput clockA) = sum256 (b.keyInput clockB)) := by
  constructor
  · rw [keyInput_eq clockA a ha, keyInput_eq clockB b hb]
    rcases hdiff with ⟨h1, h2, h3, h4⟩ | ⟨h1, h2, h3, h4⟩ | ⟨h1, h2, h3, h4⟩ | ⟨h1, h2, h3, h4⟩
    · rw [h2, h3, h4]
      intro h
      simp only [List.append_assoc] at h
      exact h1 (List.append_cancel_right h)
    · rw [h1, h3, h4]
      intro h
      simp only [List.append_assoc, List.append_cancel_left_eq] at h
      exact h2 (fmtInt_injective _ _ (List.append_cancel_right h))
    · rw [h1, h2, h4]
      intro h
      simp only [List.append_assoc, List.append_cancel_left_eq] at h
      exact h3 (List.append_cancel_right h)
    · rw [h1, h2, h3]
      intro h
      simp only [List.append_assoc, List.append_cancel_left_eq] at h
      exact h4 (fmtInt_injective _ _ h)
  · intro h
    rw [GetKey_eq, GetKey_eq] at h
    simp only [Res.map, Res.ret.injEq, Key.mk.injEq] at h
    have := fmtHex_injective _ _ h
    cases hA : sum256 (a.keyInput clockA)
    cases hB : sum256 (b.keyInput clockB)
    simp_all

theorem Key.String_eq (k : Key) : k.String = k.bytes := by
  simp [Key.String, List.take_of_length_le, k.size_eq]

theorem Key.Bytes_eq (k : Key) : k.Bytes = k.bytes := by
  simp [Key.Bytes, List.take_of_length_le, k.size_eq]

/-- C3. `Hash8`, `Hash16` and `Hash32` are the first 8, 16 and 32 characters of
`Hash64`, which is the whole stored key; the length of `HashN` is
`min N (length of the key)` for `N` in 8, 16, 32, 64; and `Hash` is `Hash8`. -/
theorem HashN_leading_part_of_Hash64 (c : item) :
    c.Hash8 = c.Hash64.take 8 ∧ c.Hash16 = c.Hash64.take 16 ∧ c.Hash32 = c.Hash64.take 32 ∧
    c.Hash64 = c.Key.bytes ∧
    c.Hash8.length = min 8 c.Key.bytes.length ∧ c.Hash16.length = min 16 c.Key.bytes.length ∧
    c.Hash32.length = min 32 c.Key.bytes.length ∧ c.Hash64.length = min 64 c.Key.bytes.length ∧
    c.Hash = c.Hash8 := by
  have hk := c.Key.size_eq
  simp [item.Hash8, item.Hash16, item.Hash32, item.Hash64, item.Hash, Key.String_eq, hk]

theorem getAncestorHash_last (p : ByteSeq) (segs : List ByteSeq) (hne : segs ≠ [])
    (hs : p.splitOn 46 = segs) :
    getAncestorHash (some p) 1 = Res.ret (some (segs.getLast hne)) := by
  have hlen : 0 < segs.length := List.length_pos.2 hne
  have hidx : segs.length - 1 < segs.length := by omega
  have hget : segs[segs.length - 1]? = some (segs.getLast hne) := by
    rw [List.getElem?_eq_getElem hidx, List.getLast_eq_getElem]
  have hcnt : ¬ ((1 : Int) > (segs.length : Int) ∨ (1 : Int) < 0) := by omega
  have hnn : ¬ ((segs.length : Int) - 1 < 0) := by omega
  have hto : ((segs.length : Int) - 1).toNat = segs.length - 1 := by omega
  simp only [getAncestorHash, hs, hcnt, if_false, hnn, hto, hget]

theorem getAncestorHash_first (p : ByteSeq) (segs : List ByteSeq) (hne : segs ≠ [])
    (hs : p.splitOn 46 = segs) :
    getAncestorHash (some p) (-1) = Res.ret (some (segs.head hne)) := by
  have hlen : 0 < segs.length := List.length_pos.2 hne
  have hget : segs[0]? = some (segs.head hne) := by
    cases segs with
    | nil => exact absurd rfl hne
    | cons s t => simp
  have hcnt : ((-1 : Int) > (segs.length : Int) ∨ (-1 : Int) < 0) := by omega
  simp only [getAncestorHash, hs, hcnt, if_true, sub_self, lt_self_iff_false, if_false,
    Int.toNat_zero, hget]

/-- C4. An item whose `Path` is nil or of length zero has the empty hash as parent
and as original post. An item whose `Path` is the non-empty dot-joined sequence
of the dot-free segments `segs` has the last segment as parent hash and the first
segment as original-post hash; for a single segment these are the same. -/
theorem parent_and_op_hash (c : item) :
    (sliceBytes c.Path = [] → c.GetParentHash = Res.ret [] ∧ c.GetOPHash = Res.ret []) ∧
    (∀ (segs : List ByteSeq) (hne : segs ≠ []), (∀ s ∈ segs, (46 : UInt8) ∉ s) →
      [46].intercalate segs ≠ [] → c.Path = some ([46].intercalate segs) →
        c.GetParentHash = Res.ret (segs.getLast hne) ∧ c.GetOPHash = Res.ret (segs.head hne) ∧
        (∀ s, segs = [s] → c.GetParentHash = Res.ret s ∧ c.GetOPHash = Res.ret s)) := by
  constructor
  · intro h
    have : c.IsTop = true := by
      simp [item.IsTop, h]
    simp [item.GetParentHash, item.GetOPHash, this, str]
  · intro segs hne hdot hnonempty hp
    have hsplit : ([46].intercalate segs).splitOn 46 = segs :=
      List.splitOn_intercalate segs 46 hdot hne
    have htop : c.IsTop = false := by
      simp [item.IsTop, hp, sliceBytes, hnonempty]
    have h1 : c.GetParentHash = Res.ret (segs.getLast hne) := by
      simp [item.GetParentHash, htop, hp, getAncestorHash_last _ segs hne hsplit, Res.map,
        sliceBytes]
    have h2 : c.GetOPHash = Res.ret (segs.head hne) := by
      simp [item.GetOPHash, htop, hp, getAncestorHash_first _ segs hne hsplit, Res.map,
        sliceBytes]
    refine ⟨h1, h2, ?_⟩
    intro s hs
    subst hs
    exact ⟨h1, h2⟩

/-- C5. On an item whose cache is not yet filled, `FullPath` returns
`Path ++ "." ++ Key` when `Path` is non-empty and the 64 bytes of `Key` when it
is empty; the returned bytes are cached, and every later call, on the item as
left by the first call or on any item carrying that cache, returns them again. -/
theorem FullPath_first_call_then_cached (c : item) (h : c.fullPath = []) :
    (sliceBytes c.Path ≠ [] → c.FullPath.1 = sliceBytes c.Path ++ [46] ++ c.Key.bytes) ∧
    (sliceBytes c.Path = [] → c.FullPath.1 = c.Key.bytes ∧ c.FullPath.1.length = 64) ∧
    c.FullPath.2 = { c with fullPath := c.FullPath.1 } ∧
    c.FullPath.2.FullPath = (c.FullPath.1, c.FullPath.2) ∧
    ∀ c2 : item, c2.fullPath = c.FullPath.2.fullPath → c2.FullPath = (c.FullPath.1, c2) := by
  have hk := c.Key.size_eq
  have hfp : c.FullPath =
      ((if (sliceBytes c.Path).length > 0 then sliceBytes c.Path ++ [46] else sliceBytes c.Path)
          ++ c.Key.bytes,
        { c with fullPath :=
          (if (sliceBytes c.Path).length > 0 then sliceBytes c.Path ++ [46] else sliceBytes c.Path)
            ++ c.Key.bytes }) := by
    simp [item.FullPath, h, Key.Bytes_eq]
  have hlen : c.FullPath.1.length ≠ 0 := by
    rw [hfp]; simp only [List.length_append, hk]; omega
  have hgen : ∀ r : ByteSeq, r.length ≠ 0 → ∀ c2 : item, c2.fullPath = r →
      c2.FullPath = (r, c2) := by
    intro r hr c2 h2
    simp [item.FullPath, h2, hr]
  have hlater : ∀ c2 : item, c2.fullPath = c.FullPath.1 → c2.FullPath = (c.FullPath.1, c2) :=
    hgen _ hlen
  have h2 : c.FullPath.2.fullPath = c.FullPath.1 := by rw [hfp]
  refine ⟨?_, ?_, ?_, ?_, ?_⟩
  · intro hp
    have : (sliceBytes c.Path).length > 0 := List.length_pos.2 hp
    rw [hfp]; simp [this]
  · intro hp
    rw [hfp]; simp [hp, hk]
  · rw [hfp]
  · exact hlater _ h2
  · intro c2 hc2
    exact hlater c2 (hc2.trans h2)

/-- C6. `loadFromAPLike` returns a vote of weight 1 for a Like and of weight -1
for a Dislike, with a nil error in both cases. -/
theorem loadFromAPLike_like_dislike (env : Env) (l : Activity) :
    (l.Typ = LikeType →
      (loadFromAPLike env l).1.Weight = 1 ∧ (loadFromAPLike env l).2 = none) ∧
    (l.Typ = DislikeType →
      (loadFromAPLike env l).1.Weight = -1 ∧ (loadFromAPLike env l).2 = none) := by
  have hne : LikeType ≠ DislikeType := by decide
  constructor
  · intro h
    simp [loadFromAPLike, h, hne]
  · intro h
    simp [loadFromAPLike, h]

theorem loadFromAPLike_like_dislike_witness :
    (sampleLike.Typ = LikeType ∧ (loadFromAPLike (sampleEnv 200) sampleLike).1.Weight = 1 ∧
      (loadFromAPLike (sampleEnv 200) sampleLike).2 = none) ∧
    (sampleDislike.Typ = DislikeType ∧
      (loadFromAPLike (sampleEnv 200) sampleDislike).1.Weight = -1 ∧
      (loadFromAPLike (sampleEnv 200) sampleDislike).2 = none) :=
  ⟨⟨by decide, (loadFromAPLike_like_dislike (sampleEnv 200) sampleLike).1 (by decide)⟩,
   ⟨by decide, (loadFromAPLike_like_dislike (sampleEnv 200) sampleDislike).2 (by decide)⟩⟩

/-- C7, as stated, fails: a Create activity is translated to a vote of weight 0
with a nil error. -/
theorem loadFromAPLike_create_no_error :
    sampleCreate.Typ ≠ LikeType ∧ sampleCreate.Typ ≠ DislikeType ∧
    (loadFromAPLike (sampleEnv 200) sampleCreate).1.Weight = 0 ∧
    (loadFromAPLike (sampleEnv 200) sampleCreate).2 = none := by
  decide

/-- C7, amended. For an activity whose type is neither Like nor Dislike,
`loadFromAPLike` does not fail: it returns a vote of weight 0 and a nil error. -/
theorem loadFromAPLike_other_type (env : Env) (l : Activity)
    (h1 : l.Typ ≠ LikeType) (h2 : l.Typ ≠ DislikeType) :
    (loadFromAPLike env l).1.Weight = 0 ∧ (loadFromAPLike env l).2 = none := by
  simp only [loadFromAPLike, h1, h2, if_false, Vote.zero]
  split_ifs <;> simp

theorem loadFromAPLike_other_type_witness :
    sampleCreate.Typ ≠ LikeType ∧ sampleCreate.Typ ≠ DislikeType ∧
    ((loadFromAPLike (sampleEnv 404) sampleCreate).1.Weight = 0 ∧
      (loadFromAPLike (sampleEnv 404) sampleCreate).2 = none) :=
  ⟨by decide, by decide,
    loadFromAPLike_other_type (sampleEnv 404) sampleCreate (by decide) (by decide)⟩

theorem Header.get_set (h : Header) (k v : ByteSeq) : Header.Get (Header.Set h k v) k = v := by
  simp [Header.Get, Header.Set]

theorem sign_fields (env : Env) (r : repository) (q q1 : Request) (e : Option GoError)
    (h : r.sign env q = Res.ret (q1, e)) :
    q1.Method = q.Method ∧ q1.URL = q.URL ∧ q1.Body = q.Body := by
  unfold repository.sign at h
  repeat' split at h
  all_goals first
    | (simp only [Res.ret.injEq, Prod.mk.injEq] at h; obtain ⟨rfl, -⟩ := h; simp)
    | (simp at h)

theorem req_cases (env : Env) (r : repository) (m u : ByteSeq) (b : Option ByteSeq) :
    (∃ w, r.req env m u b = Res.panic w) ∨
    (∃ e, r.req env m u b = Res.ret (Except.error e)) ∨
    (∃ q, r.req env m u b = Res.ret (Except.ok q) ∧ q.Method = m ∧ q.URL = u ∧ q.Body = b) := by
  unfold repository.req
  cases hN : env.NewRequest m u with
  | some err => exact Or.inr (Or.inl ⟨err, rfl⟩)
  | none =>
    simp only
    cases hs : repository.sign env r
        { Method := m, URL := u,
          Header := Header.Set [] (str "User-Agent") (env.HostName ++ str "-" ++ env.Version),
          Body := b } with
    | panic w => exact Or.inl ⟨w, rfl⟩
    | ret out =>
      obtain ⟨q1, e1⟩ := out
      have hf := sign_fields env r _ q1 e1 hs
      cases e1 with
      | none => exact Or.inr (Or.inr ⟨q1, rfl, hf⟩)
      | some e =>
        simp only
        cases r.Account with
        | none => exact Or.inl ⟨_, rfl⟩
        | some a => exact Or.inr (Or.inr ⟨q1, rfl, hf⟩)

theorem Get_cases (env : Env) (r : repository) (sent : List Request) (u : ByteSeq) :
    (∃ w, r.Get env sent u = ⟨Res.panic w, sent⟩) ∨
    (∃ e, r.Get env sent u = ⟨Res.ret (Except.error e), sent⟩) ∨
    (∃ q, r.Get env sent u = ⟨Res.ret (env.Do sent q), sent ++ [q]⟩ ∧
      q.Method = str "GET" ∧ q.URL = u ∧ q.Body = none) := by
  unfold repository.Get
  rcases req_cases env r (str "GET") u none with ⟨w, h⟩ | ⟨e, h⟩ | ⟨q, h, hq⟩
  · rw [h]; exact Or.inl ⟨w, rfl⟩
  · rw [h]; exact Or.inr (Or.inl ⟨e, rfl⟩)
  · rw [h]; exact Or.inr (Or.inr ⟨q, rfl, hq⟩)

theorem Post_cases (env : Env) (r : repository) (sent : List Request) (u ct : ByteSeq)
    (b : Option ByteSeq) :
    (∃ w, r.Post env sent u ct b = ⟨Res.panic w, sent⟩) ∨
    (∃ e, r.Post env sent u ct b = ⟨Res.ret (Except.error e), sent⟩) ∨
    (∃ q, r.Post env sent u ct b = ⟨Res.ret (env.Do sent q), sent ++ [q]⟩ ∧
      q.Method = str "POST" ∧ q.URL = u ∧ q.Body = b ∧
      Header.Get q.Header (str "Content-Type") = ct) := by
  unfold repository.Post
  rcases req_cases env r (str "POST") u b with ⟨w, h⟩ | ⟨e, h⟩ | ⟨q, h, hq⟩
  · rw [h]; exact Or.inl ⟨w, rfl⟩
  · rw [h]; exact Or.inr (Or.inl ⟨e, rfl⟩)
  · rw [h]
    exact Or.inr (Or.inr ⟨_, rfl, hq.1, hq.2.1, hq.2.2, Header.get_set _ _ _⟩)

theorem Put_cases (env : Env) (r : repository) (sent : List Request) (u ct : ByteSeq)
    (b : Option ByteSeq) :
    (∃ w, r.Put env sent u ct b = ⟨Res.panic w, sent⟩) ∨
    (∃ e, r.Put env sent u ct b = ⟨Res.ret (Except.error e), sent⟩) ∨
    (∃ q, r.Put env sent u ct b = ⟨Res.ret (env.Do sent q), sent ++ [q]⟩ ∧
      q.Method = str "PUT" ∧ q.URL = u ∧ q.Body = b ∧
      Header.Get q.Header (str "Content-Type") = ct) := by
  unfold repository.Put
  rcases req_cases env r (str "PUT") u b with ⟨w, h⟩ | ⟨e, h⟩ | ⟨q, h, hq⟩
  · rw [h]; exact Or.inl ⟨w, rfl⟩
  · rw [h]; exact Or.inr (Or.inl ⟨e, rfl⟩)
  · rw [h]
    exact Or.inr (Or.inr ⟨_, rfl, hq.1, hq.2.1, hq.2.2, Header.get_set _ _ _⟩)

theorem LoadItem_sent (env : Env) (r : repository) (sent : List Request) (f : LoadItemsFilter) :
    ∃ more, (r.LoadItem env sent f).sent = sent ++ more := by
  unfold repository.LoadItem
  simp only
  split
  · exact ⟨[], by simp⟩
  · next h0 _ =>
    generalize hu : (str "http://" ++ r.BaseUrl ++ str "/api/outbox/" ++ h0 ++
      match env.MarshalString
          { Key := [], AttributedTo := [], MaxItems := 1, Other := f.Other } with
      | Except.ok q => str "?" ++ q
      | Except.error _ => str "") = u
    rcases Get_cases env r sent u with ⟨w, h⟩ | ⟨e, h⟩ | ⟨q, h, -⟩
    · rw [h]; exact ⟨[], by simp⟩
    · rw [h]; exact ⟨[], by simp⟩
    · rw [h]
      cases env.Do sent q with
      | error e => exact ⟨[q], rfl⟩
      | ok resp =>
        simp only
        split
        · exact ⟨[q], rfl⟩
        · split
          · exact ⟨[q], rfl⟩
          · split <;> exact ⟨[q], rfl⟩

theorem exchange_cases (env : Env) (r : repository) (sent : List Request) (it : Item) :
    (∃ x, repository.SaveItem.exchange env r sent it = ⟨x, sent⟩ ∧
      ∀ art resp, x ≠ Res.ret (Exchange.answered art resp)) ∨
    (∃ author id body q, it.SubmittedBy = some author ∧ (env.loadAPItem it).GetID = some id ∧
      q.Body = some body ∧
      Header.Get q.Header (str "Content-Type") = str "application/json+activity" ∧
      (id = [] →
        env.Marshal (CreateActivityNew (str "") (.iri (env.loadAPPerson author).ID)
          (env.loadAPItem it)) = Except.ok body ∧
        q.Method = str "POST" ∧
        q.URL = str "http://" ++ r.BaseUrl ++ str "/api/accounts/"
          ++ env.HashString author.Hash ++ str "/outbox") ∧
      (id ≠ [] →
        env.Marshal (UpdateActivityNew id (.iri (env.loadAPPerson author).ID)
          (env.loadAPItem it)) = Except.ok body ∧
        q.Method = str "PUT" ∧ q.URL = id) ∧
      repository.SaveItem.exchange env r sent it =
        ⟨Res.ret (match env.Do sent q with
          | Except.ok resp => Exchange.answered (env.loadAPItem it) resp
          | Except.error e => Exchange.failed it e), sent ++ [q]⟩) := by
  cases hby : it.SubmittedBy with
  | none =>
    simp only [repository.SaveItem.exchange, hby]
    refine Or.inl ⟨_, rfl, ?_⟩; intro art resp h; cases h
  | some author =>
    cases hid : (env.loadAPItem it).GetID with
    | none =>
      simp only [repository.SaveItem.exchange, hby, hid]
      refine Or.inl ⟨_, rfl, ?_⟩; intro art resp h; cases h
    | some id =>
      by_cases hlen : id.length = 0
      · have hnil : id = [] := List.length_eq_zero.1 hlen
        cases hm : env.Marshal (CreateActivityNew (str "") (.iri (env.loadAPPerson author).ID)
            (env.loadAPItem it)) with
        | error e =>
          simp only [repository.SaveItem.exchange, hby, hid, hlen, if_true, hm]
          refine Or.inl ⟨_, rfl, ?_⟩; intro art resp h; cases h
        | ok body =>
          simp only [repository.SaveItem.exchange, hby, hid, hlen, if_true, hm,
            Bool.false_eq_true, if_false]
          rcases Post_cases env r sent (str "http://" ++ r.BaseUrl ++ str "/api/accounts/"
            ++ env.HashString author.Hash ++ str "/outbox") (str "application/json+activity")
            (some body) with ⟨w, h⟩ | ⟨e, h⟩ | ⟨q, h, hq⟩
          · rw [h]; refine Or.inl ⟨_, rfl, ?_⟩; intro art resp h; cases h
          · rw [h]; refine Or.inl ⟨_, rfl, ?_⟩; intro art resp h; cases h
          · rw [h]
            refine Or.inr ⟨author, id, body, q, rfl, rfl, hq.2.2.1, hq.2.2.2, ?_, ?_, ?_⟩
            · intro _; exact ⟨hm, hq.1, hq.2.1⟩
            · intro hne; exact absurd hnil hne
            · cases env.Do sent q <;> rfl
      · have hne : id ≠ [] := fun h => hlen (by rw [h]; rfl)
        cases hm : env.Marshal (UpdateActivityNew id (.iri (env.loadAPPerson author).ID)
            (env.loadAPItem it)) with
        | error e =>
          simp only [repository.SaveItem.exchange, hby, hid, hlen, if_false, hm]
          refine Or.inl ⟨_, rfl, ?_⟩; intro art resp h; cases h
        | ok body =>
          simp only [repository.SaveItem.exchange, hby, hid, hlen, if_false, hm, if_true]
          rcases Put_cases env r sent id (str "application/json+activity")
            (some body) with ⟨w, h⟩ | ⟨e, h⟩ | ⟨q, h, hq⟩
          · rw [h]; refine Or.inl ⟨_, rfl, ?_⟩; intro art resp h; cases h
          · rw [h]; refine Or.inl ⟨_, rfl, ?_⟩; intro art resp h; cases h
          · rw [h]
            refine Or.inr ⟨author, id, body, q, rfl, rfl, hq.2.2.1, hq.2.2.2, ?_, ?_, ?_⟩
            · intro h0; exact absurd h0 hne
            · intro _; exact ⟨hm, hq.1, hq.2.1⟩
            · cases env.Do sent q <;> rfl

theorem answer_sent (env : Env) (r : repository) (sent : List Request) (art : APItem)
    (resp : Response) : ∃ more, (repository.SaveItem.answer env r sent art resp).sent = sent ++ more := by
  unfold repository.SaveItem.answer
  split_ifs
  · exact LoadItem_sent env r sent _
  · split
    · exact ⟨[], by simp⟩
    · exact LoadItem_sent env r sent _
  all_goals exact ⟨[], by simp⟩

theorem SaveItem_sent (env : Env) (r : repository) (sent : List Request) (it : Item) :
    ((repository.SaveItem.exchange env r sent it).sent = sent ∧
      (r.SaveItem env sent it).sent = sent) ∨
    ∃ q more, (r.SaveItem env sent it).sent = sent ++ q :: more ∧
      (repository.SaveItem.exchange env r sent it).sent = sent ++ [q] := by
  rcases exchange_cases env r sent it with ⟨x, hx, hne⟩ | ⟨a, id, body, q, -, -, -, -, -, -, hx⟩
  · left
    unfold repository.SaveItem
    rw [hx]
    refine ⟨rfl, ?_⟩
    cases x with
    | panic w => rfl
    | ret e =>
      cases e with
      | failed it1 err => rfl
      | answered art resp => exact absurd rfl (hne art resp)
  · right
    unfold repository.SaveItem
    rw [hx]
    cases env.Do sent q with
    | error e => exact ⟨q, [], rfl, rfl⟩
    | ok resp =>
      obtain ⟨more, hmore⟩ := answer_sent env r (sent ++ [q]) (env.loadAPItem it) resp
      refine ⟨q, more, ?_, rfl⟩
      simp only [hmore, List.append_assoc, List.singleton_append]

theorem sign_err_account (env : Env) (r : repository) (q q1 : Request) (e : GoError)
    (h : r.sign env q = Res.ret (q1, some e)) : ∃ a, r.Account = some a := by
  cases ha : r.Account with
  | none => simp [repository.sign, ha] at h
  | some a => exact ⟨a, rfl⟩

theorem req_ok (env : Env) (r : repository) (m u : ByteSeq) (b : Option ByteSeq)
    (hN : env.NewRequest m u = none) (hs : ∀ q, ∃ out, r.sign env q = Res.ret out) :
    ∃ q, r.req env m u b = Res.ret (Except.ok q) := by
  obtain ⟨⟨q1, e1⟩, hq⟩ := hs
    { Method := m, URL := u,
      Header := Header.Set [] (str "User-Agent") (env.HostName ++ str "-" ++ env.Version),
      Body := b }
  cases e1 with
  | none => exact ⟨q1, by simp only [repository.req, hN, hq]⟩
  | some e =>
    obtain ⟨a, ha⟩ := sign_err_account env r _ q1 e hq
    exact ⟨q1, by simp only [repository.req, hN, hq, ha]⟩

theorem Post_ok (env : Env) (r : repository) (sent : List Request) (u ct : ByteSeq)
    (b : Option ByteSeq) (hN : env.NewRequest (str "POST") u = none)
    (hs : ∀ q, ∃ out, r.sign env q = Res.ret out) :
    ∃ q, r.Post env sent u ct b = ⟨Res.ret (env.Do sent q), sent ++ [q]⟩ := by
  obtain ⟨q, hq⟩ := req_ok env r (str "POST") u b hN hs
  refine ⟨{ q with Header := Header.Set q.Header (str "Content-Type") ct }, ?_⟩
  simp only [repository.Post, hq, clientDo]

theorem Put_ok (env : Env) (r : repository) (sent : List Request) (u ct : ByteSeq)
    (b : Option ByteSeq) (hN : env.NewRequest (str "PUT") u = none)
    (hs : ∀ q, ∃ out, r.sign env q = Res.ret out) :
    ∃ q, r.Put env sent u ct b = ⟨Res.ret (env.Do sent q), sent ++ [q]⟩ := by
  obtain ⟨q, hq⟩ := req_ok env r (str "PUT") u b hN hs
  refine ⟨{ q with Header := Header.Set q.Header (str "Content-Type") ct }, ?_⟩
  simp only [repository.Put, hq, clientDo]

theorem SaveItem_sends_of_exchange (env : Env) (r : repository) (sent : List Request)
    (it : Item) (q : Request)
    (h : (repository.SaveItem.exchange env r sent it).sent = sent ++ [q]) :
    ∃ req rest, (r.SaveItem env sent it).sent = sent ++ req :: rest := by
  rcases SaveItem_sent env r sent it with ⟨h0, -⟩ | ⟨q1, more, h1, -⟩
  · rw [h0] at h
    simp at h
  · exact ⟨q1, more, h1⟩

/-- C8. Whatever `SaveItem` sends first is fixed by the identifier of the
projected object alone: with an empty identifier it is the marshalled Create
activity, sent by `POST` to `http://{BaseUrl}/api/accounts/{author hash}/outbox`;
with a non-empty identifier it is the marshalled Update activity, sent by `PUT`
to that identifier; in both cases with content type `application/json+activity`.
And that request is sent whenever the item has an author, the activity can be
marshalled, the request can be constructed and signing returns. -/
theorem SaveItem_create_or_update (env : Env) (r : repository) (sent : List Request)
    (it : Item) :
    (∀ req rest, (r.SaveItem env sent it).sent = sent ++ req :: rest →
      ∃ author id body, it.SubmittedBy = some author ∧ (env.loadAPItem it).GetID = some id ∧
        req.Body = some body ∧
        Header.Get req.Header (str "Content-Type") = str "application/json+activity" ∧
        (id = [] →
          env.Marshal (CreateActivityNew (str "") (.iri (env.loadAPPerson author).ID)
            (env.loadAPItem it)) = Except.ok body ∧
          req.Method = str "POST" ∧
          req.URL = str "http://" ++ r.BaseUrl ++ str "/api/accounts/"
            ++ env.HashString author.Hash ++ str "/outbox") ∧
        (id ≠ [] →
          env.Marshal (UpdateActivityNew id (.iri (env.loadAPPerson author).ID)
            (env.loadAPItem it)) = Except.ok body ∧
          req.Method = str "PUT" ∧ req.URL = id)) ∧
    (∀ author id, it.SubmittedBy = some author → (env.loadAPItem it).GetID = some id →
      (∀ q, ∃ out, r.sign env q = Res.ret out) →
      (id = [] → ∀ body,
        env.Marshal (CreateActivityNew (str "") (.iri (env.loadAPPerson author).ID)
          (env.loadAPItem it)) = Except.ok body →
        env.NewRequest (str "POST") (str "http://" ++ r.BaseUrl ++ str "/api/accounts/"
          ++ env.HashString author.Hash ++ str "/outbox") = none →
        ∃ req rest, (r.SaveItem env sent it).sent = sent ++ req :: rest) ∧
      (id ≠ [] → ∀ body,
        env.Marshal (UpdateActivityNew id (.iri (env.loadAPPerson author).ID)
          (env.loadAPItem it)) = Except.ok body →
        env.NewRequest (str "PUT") id = none →
        ∃ req rest, (r.SaveItem env sent it).sent = sent ++ req :: rest)) := by
  constructor
  · intro req rest hsent
    rcases SaveItem_sent env r sent it with ⟨-, h0⟩ | ⟨q1, more, h1, hx1⟩
    · rw [h0] at hsent
      simp at hsent
    · rw [h1] at hsent
      have hreq : q1 = req := by
        have := List.append_cancel_left hsent
        simp only [List.cons.injEq] at this
        exact this.1
      subst hreq
      rcases exchange_cases env r sent it with ⟨x, hx, -⟩ |
        ⟨author, id, body, q, hby, hid, hbody, hct, hcreate, hupdate, hx⟩
      · rw [hx] at hx1
        simp at hx1
      · rw [hx] at hx1
        have hq : q = q1 := by
          have := List.append_cancel_left hx1
          simp only [List.cons.injEq] at this
          exact this.1
        subst hq
        exact ⟨author, id, body, hby, hid, hbody, hct, hcreate, hupdate⟩
  · intro author id hby hid hs
    constructor
    · intro hnil body hm hN
      obtain ⟨q, hq⟩ := Post_ok env r sent _ (str "application/json+activity") (some body) hN hs
      apply SaveItem_sends_of_exchange env r sent it q
      have hlen : id.length = 0 := by rw [hnil]; rfl
      simp only [repository.SaveItem.exchange, hby, hid, hlen, if_true, hm,
        Bool.false_eq_true, if_false, hq]
      cases env.Do sent q <;> rfl
    · intro hne body hm hN
      obtain ⟨q, hq⟩ := Put_ok env r sent id (str "application/json+activity") (some body) hN hs
      apply SaveItem_sends_of_exchange env r sent it q
      have hlen : ¬ id.length = 0 := fun h => hne (List.length_eq_zero.1 h)
      simp only [repository.SaveItem.exchange, hby, hid, hlen, if_false, hm, if_true, hq]
      cases env.Do sent q <;> rfl

theorem Error_status (s : ByteSeq) : (GoError.errorf "%s" [Arg.s s]).Error = some s := by
  show Option.map (s ++ ·) (some []) = some s
  simp

theorem Error_unable (s : ByteSeq) :
    (GoError.errorf "unable to save item %s" [Arg.s s]).Error =
      some (str "unable to save item " ++ s) := by
  show some (str "unable to save item " ++ (s ++ [])) = _
  simp

theorem Error_unknown (c : Int) :
    (GoError.errorf "unknown error, received status %d" [Arg.d c]).Error =
      some (str "unknown error, received status " ++ fmtInt c) := by
  show some (str "unknown error, received status " ++ (fmtInt c ++ [])) = _
  simp

theorem exchange_answered_sent (env : Env) (r : repository) (sent : List Request) (it : Item)
    (art : APItem) (resp : Response) (sent1 : List Request)
    (hx : repository.SaveItem.exchange env r sent it =
      ⟨Res.ret (Exchange.answered art resp), sent1⟩) : ∃ q, sent1 = sent ++ [q] := by
  rcases exchange_cases env r sent it with ⟨x, h, hne⟩ | ⟨a, id, body, q, -, -, -, -, -, -, h⟩
  · rw [h] at hx
    simp only [Run.mk.injEq] at hx
    exact absurd hx.1 (hne art resp)
  · rw [h] at hx
    simp only [Run.mk.injEq] at hx
    exact ⟨q, hx.2.symm⟩

/-- C9. When the activity sent by `SaveItem` is answered `201 Created`, the
result of `SaveItem` is the result of `LoadItem`, run after that one request, on
the filter whose only key is `path.Base` of the `Location` header, the last
element of its path (`abc123` for `/outbox/abc123`). -/
theorem SaveItem_created_is_LoadItem (env : Env) (r : repository) (sent : List Request)
    (it : Item) (art : APItem) (resp : Response) (sent1 : List Request)
    (hx : repository.SaveItem.exchange env r sent it =
      ⟨Res.ret (Exchange.answered art resp), sent1⟩)
    (h201 : resp.StatusCode = 201) :
    r.SaveItem env sent it =
      r.LoadItem env sent1
        { LoadItemsFilter.zero with Key := [pathBase (Header.Get resp.Header (str "Location"))] } ∧
    (∃ q, sent1 = sent ++ [q]) ∧
    pathBase (str "/outbox/abc123") = str "abc123" := by
  refine ⟨?_, exchange_answered_sent env r sent it art resp sent1 hx, by decide⟩
  simp only [repository.SaveItem, hx, repository.SaveItem.answer, h201, if_true]

theorem answer_error (env : Env) (r : repository) (sent : List Request) (art : APItem)
    (resp : Response) (h200 : resp.StatusCode ≠ 200) (h201 : resp.StatusCode ≠ 201) :
    ∃ err, repository.SaveItem.answer env r sent art resp = ⟨Res.ret (Item.zero, some err), sent⟩ ∧
      (resp.StatusCode = 404 → err.Error = some resp.Status) ∧
      (resp.StatusCode = 405 → err.Error = some resp.Status) ∧
      (resp.StatusCode = 500 → err.Error = some (str "unable to save item " ++ resp.Status)) ∧
      (resp.StatusCode ≠ 404 → resp.StatusCode ≠ 405 → resp.StatusCode ≠ 500 →
        err.Error = some (str "unknown error, received status " ++ fmtInt resp.StatusCode)) := by
  unfold repository.SaveItem.answer
  simp only [h200, h201, if_false]
  by_cases h404 : resp.StatusCode = 404
  · refine ⟨GoError.errorf "%s" [Arg.s resp.Status], by rw [if_pos h404], ?_, ?_, ?_, ?_⟩
    · intro _; exact Error_status _
    · intro h; omega
    · intro h; omega
    · intro h; exact absurd h404 h
  by_cases h405 : resp.StatusCode = 405
  · refine ⟨GoError.errorf "%s" [Arg.s resp.Status], by rw [if_neg h404, if_pos h405],
      ?_, ?_, ?_, ?_⟩
    · intro h; exact absurd h h404
    · intro _; exact Error_status _
    · intro h; omega
    · intro _ h; exact absurd h405 h
  by_cases h500 : resp.StatusCode = 500
  · refine ⟨GoError.errorf "unable to save item %s" [Arg.s resp.Status],
      by rw [if_neg h404, if_neg h405, if_pos h500], ?_, ?_, ?_, ?_⟩
    · intro h; exact absurd h h404
    · intro h; exact absurd h h405
    · intro _; exact Error_unable _
    · intro _ _ h; exact absurd h500 h
  · refine ⟨GoError.errorf "unknown error, received status %d" [Arg.d resp.StatusCode],
      by rw [if_neg h404, if_neg h405, if_neg h500], ?_, ?_, ?_, ?_⟩
    · intro h; exact absurd h h404
    · intro h; exact absurd h h405
    · intro h; exact absurd h h500
    · intro _ _ _; exact Error_unknown _

theorem message_class (code : Int) (status m : ByteSeq) (hp : fmtInt code <+: status)
    (h1 : code = 404 → m = status) (h2 : code = 405 → m = status)
    (h3 : code = 500 → m = str "unable to save item " ++ status)
    (h4 : code ≠ 404 → code ≠ 405 → code ≠ 500 →
      m = str "unknown error, received status " ++ fmtInt code) :
    (code = 404 ∧ m.take 3 = [52, 48, 52]) ∨ (code = 405 ∧ m.take 3 = [52, 48, 53]) ∨
    (code = 500 ∧ m.take 3 = [117, 110, 97]) ∨
    ((code ≠ 404 ∧ code ≠ 405 ∧ code ≠ 500) ∧
      m = str "unknown error, received status " ++ fmtInt code ∧ m.take 3 = [117, 110, 107]) := by
  by_cases c1 : code = 404
  · left
    refine ⟨c1, ?_⟩
    obtain ⟨t, ht⟩ := hp
    rw [h1 c1, ← ht, c1]
    rfl
  by_cases c2 : code = 405
  · right; left
    refine ⟨c2, ?_⟩
    obtain ⟨t, ht⟩ := hp
    rw [h2 c2, ← ht, c2]
    rfl
  by_cases c3 : code = 500
  · right; right; left
    refine ⟨c3, ?_⟩
    rw [h3 c3]
    rfl
  · right; right; right
    refine ⟨⟨c1, c2, c3⟩, h4 c1 c2 c3, ?_⟩
    rw [h4 c1 c2 c3]
    rfl

theorem messages_differ (code1 code2 : Int) (status1 status2 m1 m2 : ByteSeq)
    (hp1 : fmtInt code1 <+: status1) (hp2 : fmtInt code2 <+: status2)
    (a1 : code1 = 404 → m1 = status1) (a2 : code1 = 405 → m1 = status1)
    (a3 : code1 = 500 → m1 = str "unable to save item " ++ status1)
    (a4 : code1 ≠ 404 → code1 ≠ 405 → code1 ≠ 500 →
      m1 = str "unknown error, received status " ++ fmtInt code1)
    (b1 : code2 = 404 → m2 = status2) (b2 : code2 = 405 → m2 = status2)
    (b3 : code2 = 500 → m2 = str "unable to save item " ++ status2)
    (b4 : code2 ≠ 404 → code2 ≠ 405 → code2 ≠ 500 →
      m2 = str "unknown error, received status " ++ fmtInt code2)
    (hne : code1 ≠ code2) : m1 ≠ m2 := by
  intro heq
  have k1 := message_class code1 status1 m1 hp1 a1 a2 a3 a4
  have k2 := message_class code2 status2 m2 hp2 b1 b2 b3 b4
  rw [heq] at k1
  rcases k1 with ⟨c1, t1⟩ | ⟨c1, t1⟩ | ⟨c1, t1⟩ | ⟨c1, e1, t1⟩ <;>
    rcases k2 with ⟨c2, t2⟩ | ⟨c2, t2⟩ | ⟨c2, t2⟩ | ⟨c2, e2, t2⟩
  all_goals first
    | (exact hne (c1.trans c2.symm))
    | (rw [t1] at t2; revert t2; decide)
    | (rw [e1] at e2
       exact hne (fmtInt_injective _ _ (List.append_cancel_left e2)))

/-- C10, as stated, fails: the errors for 404 and for 405 are built in the same
way from the status line, so a 404 answer and a 405 answer that carry the same
status line give the same error. -/
theorem SaveItem_404_405_same_error :
    (sampleRepository.SaveItem (sampleEnvStatusLine 404 (str "error")) [] sampleNewItem).res
      = Res.ret (Item.zero, some (GoError.errorf "%s" [Arg.s (str "error")])) ∧
    (sampleRepository.SaveItem (sampleEnvStatusLine 405 (str "error")) [] sampleNewItem).res
      = Res.ret (Item.zero, some (GoError.errorf "%s" [Arg.s (str "error")])) ∧
    (sampleRepository.SaveItem (sampleEnvStatusLine 404 (str "error")) [] sampleNewItem).res
      = (sampleRepository.SaveItem (sampleEnvStatusLine 405 (str "error")) [] sampleNewItem).res := by
  decide

/-- C10, amended. When the activity sent by `SaveItem` is answered with a status
other than 200 and 201, `SaveItem` returns the empty item and an error. The
message of the error is the status line for 404 and for 405, `unable to save item`
followed by the status line for 500, and `unknown error, received status`
followed by the decimal status code for every other status. Two such answers with
different status codes give errors with different messages provided each status
line starts with its status code (as `net/http` delivers them); only then are
404, 405, 500 and the unknown-error told apart. -/
theorem SaveItem_error_statuses (env : Env) (r : repository) (sent : List Request)
    (it : Item) (art : APItem) (resp : Response) (sent1 : List Request)
    (hx : repository.SaveItem.exchange env r sent it =
      ⟨Res.ret (Exchange.answered art resp), sent1⟩)
    (h200 : resp.StatusCode ≠ 200) (h201 : resp.StatusCode ≠ 201) :
    ∃ err, r.SaveItem env sent it = ⟨Res.ret (Item.zero, some err), sent1⟩ ∧
      (resp.StatusCode = 404 → err.Error = some resp.Status) ∧
      (resp.StatusCode = 405 → err.Error = some resp.Status) ∧
      (resp.StatusCode = 500 → err.Error = some (str "unable to save item " ++ resp.Status)) ∧
      (resp.StatusCode ≠ 404 → resp.StatusCode ≠ 405 → resp.StatusCode ≠ 500 →
        err.Error = some (str "unknown error, received status " ++ fmtInt resp.StatusCode)) ∧
      ∀ (env2 : Env) (r2 : repository) (sent2 : List Request) (it2 : Item) (art2 : APItem)
        (resp2 : Response) (sent3 : List Request) (err2 : GoError),
        repository.SaveItem.exchange env2 r2 sent2 it2 =
          ⟨Res.ret (Exchange.answered art2 resp2), sent3⟩ →
        resp2.StatusCode ≠ 200 → resp2.StatusCode ≠ 201 →
        r2.SaveItem env2 sent2 it2 = ⟨Res.ret (Item.zero, some err2), sent3⟩ →
        fmtInt resp.StatusCode <+: resp.Status → fmtInt resp2.StatusCode <+: resp2.Status →
        resp.StatusCode ≠ resp2.StatusCode →
        err.Error ≠ err2.Error ∧ err ≠ err2 := by
  obtain ⟨err, herr, e1, e2, e3, e4⟩ := answer_error env r sent1 art resp h200 h201
  have hsave : r.SaveItem env sent it = repository.SaveItem.answer env r sent1 art resp := by
    simp only [repository.SaveItem, hx]
  refine ⟨err, hsave.trans herr, e1, e2, e3, e4, ?_⟩
  intro env2 r2 sent2 it2 art2 resp2 sent3 err2 hx2 g200 g201 hsave2 hp1 hp2 hne
  obtain ⟨err3, herr3, f1, f2, f3, f4⟩ := answer_error env2 r2 sent3 art2 resp2 g200 g201
  have hsave3 : r2.SaveItem env2 sent2 it2 = repository.SaveItem.answer env2 r2 sent3 art2 resp2 := by
    simp only [repository.SaveItem, hx2]
  have h23 : err2 = err3 := by
    have := hsave2.symm.trans (hsave3.trans herr3)
    simp only [Run.mk.injEq, Res.ret.injEq, Prod.mk.injEq, Option.some.injEq, and_true,
      true_and] at this
    exact this
  subst h23
  have hmsg : err.Error ≠ err2.Error := by
    -- both messages exist; compare them
    obtain ⟨m1, hm1⟩ : ∃ m, err.Error = some m := by
      by_cases c1 : resp.StatusCode = 404
      · exact ⟨_, e1 c1⟩
      by_cases c2 : resp.StatusCode = 405
      · exact ⟨_, e2 c2⟩
      by_cases c3 : resp.StatusCode = 500
      · exact ⟨_, e3 c3⟩
      · exact ⟨_, e4 c1 c2 c3⟩
    obtain ⟨m2, hm2⟩ : ∃ m, err2.Error = some m := by
      by_cases c1 : resp2.StatusCode = 404
      · exact ⟨_, f1 c1⟩
      by_cases c2 : resp2.StatusCode = 405
      · exact ⟨_, f2 c2⟩
      by_cases c3 : resp2.StatusCode = 500
      · exact ⟨_, f3 c3⟩
      · exact ⟨_, f4 c1 c2 c3⟩
    rw [hm1, hm2]
    intro h
    have hm : m1 = m2 := Option.some.inj h
    refine messages_differ resp.StatusCode resp2.StatusCode resp.Status resp2.Status m1 m2
      hp1 hp2 ?_ ?_ ?_ ?_ ?_ ?_ ?_ ?_ hne hm
    · intro c; exact Option.some.inj (hm1.symm.trans (e1 c))
    · intro c; exact Option.some.inj (hm1.symm.trans (e2 c))
    · intro c; exact Option.some.inj (hm1.symm.trans (e3 c))
    · intro c1 c2 c3; exact Option.some.inj (hm1.symm.trans (e4 c1 c2 c3))
    · intro c; exact Option.some.inj (hm2.symm.trans (f1 c))
    · intro c; exact Option.some.inj (hm2.symm.trans (f2 c))
    · intro c; exact Option.some.inj (hm2.symm.trans (f3 c))
    · intro c1 c2 c3; exact Option.some.inj (hm2.symm.trans (f4 c1 c2 c3))
  exact ⟨hmsg, fun h => hmsg (by rw [h])⟩

theorem GetKey_is_hex_digest_witness :
    sampleItem.UpdatedAt.IsZero = false ∧
    ∃ k : Key, sampleItem.GetKey sampleSum256 ⟨0, 0⟩ = Res.ret (k, { sampleItem with Key := k }) ∧
      k.bytes.length = 64 :=
  ⟨by decide,
    (GetKey_is_hex_digest sampleSum256 ⟨0, 0⟩ sampleItem (by decide)).imp
      fun _ h => ⟨h.1, h.2.2.1⟩⟩

theorem keyInput_differs_on_single_change_witness :
    sampleItem.keyInput ⟨0, 0⟩ ≠ ({ sampleItem with Data := str "hullo" } : item).keyInput ⟨0, 0⟩ :=
  (keyInput_differs_on_single_change sampleSum256 ⟨0, 0⟩ ⟨0, 0⟩ sampleItem
    { sampleItem with Data := str "hullo" } (by decide) (by decide)
    (Or.inl ⟨by decide, rfl, rfl, rfl⟩)).1

theorem parent_and_op_hash_witness :
    sampleItem.Path = some ([46].intercalate [str "aa", str "bb"]) ∧
    sampleItem.GetParentHash = Res.ret (str "bb") ∧ sampleItem.GetOPHash = Res.ret (str "aa") :=
  have h := (parent_and_op_hash sampleItem).2 [str "aa", str "bb"] (by simp) (by decide)
    (by decide) (by decide)
  ⟨by decide, h.1, h.2.1⟩

theorem FullPath_first_call_then_cached_witness :
    sampleItem.fullPath = [] ∧
    sampleItem.FullPath.1 = str "aa.bb" ++ [46] ++ sampleItem.Key.bytes :=
  ⟨rfl, (FullPath_first_call_then_cached sampleItem rfl).1 (by decide)⟩

theorem SaveItem_create_or_update_witness :
    ∃ req rest, (sampleRepository.SaveItem (sampleEnv 201) [] sampleNewItem).sent
        = [] ++ req :: rest ∧
      req.Method = str "POST" ∧ req.URL = str "http://littr.me/api/accounts/f00d/outbox" ∧
      Header.Get req.Header (str "Content-Type") = str "application/json+activity" := by
  have t := SaveItem_create_or_update (sampleEnv 201) sampleRepository [] sampleNewItem
  obtain ⟨req, rest, h⟩ :=
    (t.2 sampleAuthor [] rfl rfl (fun q => ⟨(q, none), rfl⟩)).1 rfl (str "Create ") rfl rfl
  obtain ⟨author, id, body, hby, hid, -, hct, hc, -⟩ := t.1 req rest h
  have hid0 : ((sampleEnv 201).loadAPItem sampleNewItem).GetID = some [] := rfl
  have hnil : id = [] := (Option.some.inj (hid0.symm.trans hid)).symm
  have hauthor : author = sampleAuthor := (Option.some.inj hby).symm
  obtain ⟨-, hm, hu⟩ := hc hnil
  rw [hauthor] at hu
  exact ⟨req, rest, h, hm, hu, hct⟩

theorem SaveItem_created_is_LoadItem_witness :
    repository.SaveItem.exchange (sampleEnv 201) sampleRepository [] sampleNewItem =
      ⟨Res.ret (Exchange.answered ((sampleEnv 201).loadAPItem sampleNewItem) (sampleResponse 201)),
        [sampleSaveRequest]⟩ ∧
    (sampleResponse 201).StatusCode = 201 ∧
    sampleRepository.SaveItem (sampleEnv 201) [] sampleNewItem =
      sampleRepository.LoadItem (sampleEnv 201) [sampleSaveRequest]
        { LoadItemsFilter.zero with Key := [str "abc123"] } ∧
    (sampleRepository.SaveItem (sampleEnv 201) [] sampleNewItem).res.map (fun x => x.1.Hash)
      = Res.ret (str "abc123") :=
  ⟨rfl, rfl,
    (SaveItem_created_is_LoadItem (sampleEnv 201) sampleRepository [] sampleNewItem
      ((sampleEnv 201).loadAPItem sampleNewItem) (sampleResponse 201) [sampleSaveRequest]
      rfl rfl).1,
    by decide⟩

theorem SaveItem_error_statuses_witness :
    repository.SaveItem.exchange (sampleEnv 404) sampleRepository [] sampleNewItem =
      ⟨Res.ret (Exchange.answered ((sampleEnv 404).loadAPItem sampleNewItem) (sampleResponse 404)),
        [sampleSaveRequest]⟩ ∧
    ∃ err, sampleRepository.SaveItem (sampleEnv 404) [] sampleNewItem =
        ⟨Res.ret (Item.zero, some err), [sampleSaveRequest]⟩ ∧
      err.Error = some (str "404 status") ∧
      ∀ err2, sampleRepository.SaveItem (sampleEnv 405) [] sampleNewItem =
          ⟨Res.ret (Item.zero, some err2), [sampleSaveRequest]⟩ → err.Error ≠ err2.Error :=
  ⟨rfl,
    (SaveItem_error_statuses (sampleEnv 404) sampleRepository [] sampleNewItem
      ((sampleEnv 404).loadAPItem sampleNewItem) (sampleResponse 404) [sampleSaveRequest]
      rfl (by decide) (by decide)).imp fun _ h =>
        ⟨h.1, h.2.1 rfl, fun err2 h2 =>
          (h.2.2.2.2.2 (sampleEnv 405) sampleRepository [] sampleNewItem
            ((sampleEnv 405).loadAPItem sampleNewItem) (sampleResponse 405) [sampleSaveRequest]
            err2 rfl (by decide) (by decide) h2 ⟨str " status", rfl⟩ ⟨str " status", rfl⟩
            (by decide)).1⟩⟩
theorem loadFromAPItem_ret (env : Env) (it : APItem) (h : it ≠ APItem.nil) :
    ∃ v, loadFromAPItem env it = Res.ret v ∧ (v.2 ≠ none → v.1 = Item.zero) := by
  cases it with
  | nil => exact absurd rfl h
  | iri v => exact ⟨_, rfl, fun _ => rfl⟩
  | article a => exact ⟨_, rfl, fun hn => absurd rfl hn⟩
  | articlePtr a => exact ⟨_, rfl, fun hn => absurd rfl hn⟩
  | object o => exact ⟨_, rfl, fun hn => absurd rfl hn⟩
  | objectPtr o => exact ⟨_, rfl, fun hn => absurd rfl hn⟩
  | person p => exact ⟨_, rfl, fun _ => rfl⟩
  | other id l =>
    cases l with
    | true => exact ⟨_, rfl, fun _ => rfl⟩
    | false => exact ⟨_, rfl, fun _ => rfl⟩

theorem LoadItems.fill_spec (env : Env) :
    ∀ (entries : List CollItem) (k : Nat) (items : List Item),
      k + entries.length ≤ items.length → (∀ e ∈ entries, e.asItem ≠ APItem.nil) →
      ∃ out, repository.LoadItems.fill env entries k items = Res.ret out ∧
        out.length = items.length ∧
        (∀ j (hj : j < entries.length), ∃ v,
          loadFromAPItem env (entries[j]).asItem = Res.ret v ∧ out[k + j]? = some v.1) ∧
        (∀ j, j < k ∨ k + entries.length ≤ j → out[j]? = items[j]?) := by
  intro entries
  induction entries with
  | nil =>
    intro k items _ _
    refine ⟨items, rfl, rfl, ?_, fun j _ => rfl⟩
    intro j hj
    simp at hj
  | cons e rest ih =>
    intro k items hlen hnil
    obtain ⟨v, hv, -⟩ := loadFromAPItem_ret env e.asItem (hnil e (by simp))
    have hk : k < items.length := by simp at hlen; omega
    obtain ⟨out, hout, hl, hpos, hrest⟩ := ih (k + 1) (items.set k v.1)
      (by simp at hlen ⊢; omega) (fun x hx => hnil x (by simp [hx]))
    refine ⟨out, ?_, ?_, ?_, ?_⟩
    · simp only [repository.LoadItems.fill, hv, hk, if_true]
      exact hout
    · simpa using hl
    · intro j hj
      cases j with
      | zero =>
        refine ⟨v, hv, ?_⟩
        rw [Nat.add_zero, hrest k (Or.inl (by omega))]
        simp [hk]
      | succ j =>
        obtain ⟨w, hw, hget⟩ := hpos j (by simpa using hj)
        refine ⟨w, by simpa using hw, ?_⟩
        rw [← hget]
        congr 1
        omega
    · intro j hj
      have hj1 : j < k + 1 ∨ k + 1 + rest.length ≤ j := by
        rcases hj with h | h
        · left; omega
        · right; simp at h; omega
      rw [hrest j hj1]
      have hne : k ≠ j := by
        rcases hj with h | h
        · omega
        · simp at h; omega
      simp [List.getElem?_set, hne]

theorem LoadItems.fill_overflow (env : Env) (e : CollItem) (rest : List CollItem) (k : Nat)
    (items : List Item) (h : items.length ≤ k) :
    ∃ w, repository.LoadItems.fill env (e :: rest) k items = Res.panic w := by
  have hk : ¬ k < items.length := by omega
  cases hv : loadFromAPItem env e.asItem with
  | panic w => exact ⟨w, by simp only [repository.LoadItems.fill, hv]⟩
  | ret v =>
    exact ⟨"index out of range", by simp only [repository.LoadItems.fill, hv, hk, if_false]⟩

/-- C11, as stated, fails: for a collection that declares 3 items and has 3
entries, the second a link, `LoadItems` returns 3 items, the second of which is
the empty item; and for one that declares 3 items and has 2 entries, both
well-formed, it returns 3 items, the last of which is the empty item. -/
theorem LoadItems_keeps_empty_items :
    (sampleRepository.LoadItems (sampleEnvWith sampleMixedCollection) []
        LoadItemsFilter.zero).res.map (fun x => (x.1.map List.length, x.1.map (fun l => l[1]?), x.2))
      = Res.ret (some 3, some (some Item.zero), none) ∧
    (sampleRepository.LoadItems (sampleEnvWith sampleShortCollection) []
        LoadItemsFilter.zero).res.map (fun x => (x.1.map List.length, x.1.map (fun l => l[2]?), x.2))
      = Res.ret (some 3, some (some Item.zero), none) := by
  decide

/-- C11, amended. When the body decodes to a collection whose declared total is
within what `make` can allocate, with no more entries than that total, none of
them the nil interface, `LoadItems` returns
without error a collection of exactly `TotalItems` items: position `j` holds what
`loadFromAPItem` returns for entry `j`, which is the empty item for an entry it
cannot translate (a link or an unsupported type), and the positions after the
last entry hold empty items. -/
theorem LoadItems_positions (env : Env) (r : repository) (sent : List Request)
    (f : LoadItemsFilter) (col : OrderedCollection) (sent1 : List Request)
    (hfetch : repository.LoadItems.fetch env r sent f = ⟨Res.ret (Except.ok col), sent1⟩)
    (hmake : col.TotalItems ≤ env.MaxSliceLen)
    (hlen : col.OrderedItems.length ≤ col.TotalItems)
    (hnil : ∀ e ∈ col.OrderedItems, e.asItem ≠ APItem.nil) :
    ∃ items, r.LoadItems env sent f = ⟨Res.ret (some items, none), sent1⟩ ∧
      items.length = col.TotalItems ∧
      (∀ j (hj : j < col.OrderedItems.length), ∃ v,
        loadFromAPItem env (col.OrderedItems[j]).asItem = Res.ret v ∧ items[j]? = some v.1 ∧
        (v.2 ≠ none → items[j]? = some Item.zero)) ∧
      (∀ j, col.OrderedItems.length ≤ j → j < col.TotalItems → items[j]? = some Item.zero) := by
  obtain ⟨out, hout, hl, hpos, hrest⟩ := LoadItems.fill_spec env col.OrderedItems 0
    (List.replicate col.TotalItems Item.zero) (by simpa using hlen) hnil
  refine ⟨out, ?_, by simpa using hl, ?_, ?_⟩
  · simp only [repository.LoadItems, hfetch, repository.LoadItems.collect, hmake, if_true, hout]
  · intro j hj
    obtain ⟨v, hv, hget⟩ := hpos j hj
    rw [Nat.zero_add] at hget
    refine ⟨v, hv, hget, fun hne => ?_⟩
    obtain ⟨v2, hv2, hz⟩ := loadFromAPItem_ret env (col.OrderedItems[j]).asItem
      (hnil _ (List.getElem_mem hj))
    have hvv : v = v2 := Res.ret.inj (hv.symm.trans hv2)
    subst hvv
    rw [hget, hz hne]
  · intro j hj hjt
    rw [hrest j (Or.inr (by omega))]
    simp [hjt]

theorem LoadItems_positions_witness :
    repository.LoadItems.fetch (sampleEnvWith sampleShortCollection) sampleRepository []
        LoadItemsFilter.zero =
      ⟨Res.ret (Except.ok sampleShortCollection),
        [{ sampleGetRequest with URL := str "http://littr.me/api/outbox?" }]⟩ ∧
    ∃ items, sampleRepository.LoadItems (sampleEnvWith sampleShortCollection) []
        LoadItemsFilter.zero =
        ⟨Res.ret (some items, none),
          [{ sampleGetRequest with URL := str "http://littr.me/api/outbox?" }]⟩ ∧
      items.length = 3 ∧ items[2]? = some Item.zero :=
  ⟨rfl,
    (LoadItems_positions (sampleEnvWith sampleShortCollection) sampleRepository []
      LoadItemsFilter.zero sampleShortCollection
      [{ sampleGetRequest with URL := str "http://littr.me/api/outbox?" }] rfl (by decide)
      (by decide) (by decide)).imp fun _ h => ⟨h.1, h.2.1, h.2.2.2 2 (by decide) (by decide)⟩⟩

/-- C12. The code does not do what the claim says: with more entries than the
declared total the loop writes outside the result. For every collection that
declares no item and has at least one entry the second part of `LoadItems`
panics, and so does `LoadItems` on a body that decodes to one article under a
total of 0. -/
theorem LoadItems_panics_beyond_total :
    (∀ (env : Env) (id : ByteSeq) (e : CollItem) (rest : List CollItem), ∃ w,
      repository.LoadItems.collect env { ID := id, TotalItems := 0, OrderedItems := e :: rest }
        = Res.panic w) ∧
    (sampleRepository.LoadItems (sampleEnvWith sampleUndeclaredCollection) []
        LoadItemsFilter.zero).res = Res.panic "index out of range" := by
  refine ⟨?_, by decide⟩
  intro env id e rest
  simp only [repository.LoadItems.collect, Nat.zero_le, if_true]
  exact LoadItems.fill_overflow env e rest 0 _ (by simp)

/-- C13. For a filter whose `ItemKey` list is empty, `LoadVote` returns the
empty vote and the error `invalid item hash`, and hands no request to the HTTP
client. -/
theorem LoadVote_empty_filter (env : Env) (r : repository) (sent : List Request)
    (f : LoadVotesFilter) (h : f.ItemKey = []) :
    r.LoadVote env sent f =
      ⟨Res.ret (Vote.zero, some (GoError.new "invalid item hash")), sent⟩ := by
  simp [repository.LoadVote, h]

theorem LoadVote_empty_filter_witness :
    LoadVotesFilter.zero.ItemKey = [] ∧
    sampleRepository.LoadVote (sampleEnv 200) [] LoadVotesFilter.zero =
      ⟨Res.ret (Vote.zero, some (GoError.new "invalid item hash")), []⟩ :=
  ⟨rfl, LoadVote_empty_filter (sampleEnv 200) sampleRepository [] LoadVotesFilter.zero rfl⟩

/-- C14. The code does not do what the claim says: for every filter whose `Key`
list is empty, `LoadItem` panics at `hashes[0]`, before any request is made,
instead of returning an error. -/
theorem LoadItem_empty_key_panics (env : Env) (r : repository) (sent : List Request)
    (f : LoadItemsFilter) :
    r.LoadItem env sent { f with Key := [] } =
      ⟨Res.panic "index out of range [0] with length 0", sent⟩ := by
  simp [repository.LoadItem]

theorem LoadItem_swallows_decode_error (env : Env) (r : repository) (sent : List Request)
    (f : LoadItemsFilter) (h0 : ByteSeq) (rest : List ByteSeq) (resp : Response)
    (sent1 : List Request) (hkey : f.Key = h0 :: rest)
    (hget : r.Get env sent (str "http://" ++ r.BaseUrl ++ str "/api/outbox/" ++ h0 ++
      match env.MarshalString { f with MaxItems := 1, AttributedTo := [], Key := [] } with
      | Except.ok q => str "?" ++ q
      | Except.error _ => str "") = ⟨Res.ret (Except.ok resp), sent1⟩)
    (h200 : resp.StatusCode = 200)
    (hbad : (∃ e, resp.Body = Except.error e) ∨
      ∃ body e, resp.Body = Except.ok body ∧ env.UnmarshalArticle body = Except.error e) :
    r.LoadItem env sent f = ⟨Res.ret (Item.zero, none), sent1⟩ := by
  rcases hbad with ⟨e, hb⟩ | ⟨body, e, hb, hu⟩
  · simp only [repository.LoadItem, hkey, List.getElem?_cons_zero, hget, h200, ne_eq,
      not_true_eq_false, if_false, hb]
  · simp only [repository.LoadItem, hkey, List.getElem?_cons_zero, hget, h200, ne_eq,
      not_true_eq_false, if_false, hb, hu]

/-- C15. The code does not do what the claim says: when the answer is `200 OK`
and its body does not decode to an article, or cannot be read, `LoadItem`
returns the empty item together with a nil error. -/
theorem LoadItem_decode_failure_nil_error :
    (sampleRepository.LoadItem sampleUndecodableEnv []
        { LoadItemsFilter.zero with Key := [str "abc123"] }).res = Res.ret (Item.zero, none) ∧
    (sampleRepository.LoadItem sampleUnreadableEnv []
        { LoadItemsFilter.zero with Key := [str "abc123"] }).res = Res.ret (Item.zero, none) := by
  decide

theorem sign_other_key_reaches_SignRequest (env : Env) (r : repository) (req : Request)
    (acct : AccountPtr) (m : AccountMetadata) (k : SSHKey)
    (ha : r.Account = some acct) (hanon : acct.addr ≠ env.AnonymousAccount)
    (hm : acct.val.Metadata = some m) (hk : m.Key = some k)
    (hrsa : k.ID ≠ str "id-rsa") (hec : k.ID ≠ str "id-ecdsa") :
    r.sign env req =
      Res.ret ({ req with Header := (env.SignRequest req (env.loadAPPerson acct.val) none).1 },
        (env.SignRequest req (env.loadAPPerson acct.val) none).2) := by
  simp [repository.sign, ha, hanon, hm, hk, hrsa, hec]

/-- C16. The code does not do what the claim says: an account loaded through
the API has the key identifier `""`, which is not `id-rsa`, and for it `sign`
proceeds to `SignRequest` with a nil private key and returns its result, here a
signed request and a nil error. -/
theorem sign_empty_key_id_is_signed :
    (loadFromAPPerson (sampleEnv 200) samplePerson).1.Metadata =
      some { Key := some { ID := str "", Private := [], Public := str "PEM" } } ∧
    sampleLoadedRepository.sign (sampleEnv 200) sampleGetRequest =
      Res.ret ({ sampleGetRequest with
        Header := ((sampleEnv 200).SignRequest sampleGetRequest
          ((sampleEnv 200).loadAPPerson (loadFromAPPerson (sampleEnv 200) samplePerson).1) none).1 },
        none) ∧
    Header.Get ((sampleEnv 200).SignRequest sampleGetRequest
      ((sampleEnv 200).loadAPPerson (loadFromAPPerson (sampleEnv 200) samplePerson).1) none).1
      (str "Signature") = str "sig" := by
  decide

/-- What holds of `req` when `sign` returns: when the request can be
constructed and `sign` returns, with or without an error, `req` returns the request as `sign` left it (same method, URL
and body) with a nil error, and each of `Head`, `Get`, `Post`, `Put` and
`Delete` hands it to the HTTP client. -/
theorem req_returns_request_whatever_sign_returns (env : Env) (r : repository)
    (m u : ByteSeq) (b : Option ByteSeq) (q1 : Request) (e : Option GoError)
    (hN : env.NewRequest m u = none)
    (hs : r.sign env
      { Method := m, URL := u,
        Header := Header.Set [] (str "User-Agent") (env.HostName ++ str "-" ++ env.Version),
        Body := b } = Res.ret (q1, e)) :
    r.req env m u b = Res.ret (Except.ok q1) ∧ q1.Method = m ∧ q1.URL = u ∧ q1.Body = b ∧
    ∀ sent : List Request,
      (m = str "HEAD" → b = none → r.Head env sent u = ⟨Res.ret (env.Do sent q1), sent ++ [q1]⟩) ∧
      (m = str "GET" → b = none → r.Get env sent u = ⟨Res.ret (env.Do sent q1), sent ++ [q1]⟩) ∧
      (m = str "POST" → ∀ ct, r.Post env sent u ct b =
        ⟨Res.ret (env.Do sent { q1 with Header := Header.Set q1.Header (str "Content-Type") ct }),
          sent ++ [{ q1 with Header := Header.Set q1.Header (str "Content-Type") ct }]⟩) ∧
      (m = str "PUT" → ∀ ct, r.Put env sent u ct b =
        ⟨Res.ret (env.Do sent { q1 with Header := Header.Set q1.Header (str "Content-Type") ct }),
          sent ++ [{ q1 with Header := Header.Set q1.Header (str "Content-Type") ct }]⟩) ∧
      (m = str "DELETE" → ∀ ct, r.Delete env sent u ct b =
        ⟨Res.ret (env.Do sent { q1 with Header := Header.Set q1.Header (str "Content-Type") ct }),
          sent ++ [{ q1 with Header := Header.Set q1.Header (str "Content-Type") ct }]⟩) := by
  have hreq : r.req env m u b = Res.ret (Except.ok q1) := by
    cases e with
    | none => simp only [repository.req, hN, hs]
    | some err =>
      obtain ⟨a, ha⟩ := sign_err_account env r _ q1 err hs
      simp only [repository.req, hN, hs, ha]
  have hf := sign_fields env r _ q1 e hs
  refine ⟨hreq, hf.1, hf.2.1, hf.2.2, ?_⟩
  intro sent
  refine ⟨?_, ?_, ?_, ?_, ?_⟩
  · intro hm hb
    subst hm; subst hb
    simp only [repository.Head, hreq, clientDo]
  · intro hm hb
    subst hm; subst hb
    simp only [repository.Get, hreq, clientDo]
  · intro hm ct
    subst hm
    simp only [repository.Post, hreq, clientDo]
  · intro hm ct
    subst hm
    simp only [repository.Put, hreq, clientDo]
  · intro hm ct
    subst hm
    simp only [repository.Delete, hreq, clientDo]

theorem req_returns_request_whatever_sign_returns_witness :
    sampleEcdsaRepository.sign (sampleEnv 200) sampleGetRequest =
      Res.ret (sampleGetRequest,
        some (GoError.errorf "unsupported private key type %s" [Arg.s (str "id-ecdsa")])) ∧
    sampleEcdsaRepository.req (sampleEnv 200) (str "GET")
      (str "http://littr.me/api/outbox/abc123") none = Res.ret (Except.ok sampleGetRequest) ∧
    (sampleEcdsaRepository.Get (sampleEnv 200) [] (str "http://littr.me/api/outbox/abc123")).sent
      = [sampleGetRequest] :=
  have h := req_returns_request_whatever_sign_returns (sampleEnv 200) sampleEcdsaRepository
    (str "GET") (str "http://littr.me/api/outbox/abc123") none sampleGetRequest
    (some (GoError.errorf "unsupported private key type %s" [Arg.s (str "id-ecdsa")])) rfl
    (by decide)
  ⟨by decide, h.1, by rw [(h.2.2.2.2 []).2.1 rfl rfl]; rfl⟩

/-- C18. The code does not do what the claim says: an entry that is a Like,
a Dislike or an activity without an object makes the loop of `LoadVotes` panic
on `vot.Item.Hash`, whatever entries follow; `LoadVotes` on a collection of two
Likes, the first without an object, panics instead of returning the vote of the
second. -/
theorem LoadVotes_panics_without_object :
    (∀ (env : Env) (a : Activity) (rest : List CollItem) (items : VoteCollection),
      repository.LoadVotes.fill env (.like { a with Object := .nil } :: rest) items
        = Res.panic "nil pointer dereference" ∧
      repository.LoadVotes.fill env (.dislike { a with Object := .nil } :: rest) items
        = Res.panic "nil pointer dereference" ∧
      repository.LoadVotes.fill env (.activity { a with Object := .nil } :: rest) items
        = Res.panic "nil pointer dereference") ∧
    (sampleRepository.LoadVotes (sampleEnvWith sampleVotesCollection) []
        LoadVotesFilter.zero).res = Res.panic "nil pointer dereference" := by
  refine ⟨?_, by decide⟩
  intro env a rest items
  have hstore : repository.LoadVotes.store env { a with Object := .nil } items
      = Res.panic "nil pointer dereference" := by
    simp only [repository.LoadVotes.store, loadFromAPLike, ne_eq, not_true_eq_false, if_false,
      Vote.zero]
    split_ifs <;> rfl
  refine ⟨?_, ?_, ?_⟩ <;> simp only [repository.LoadVotes.fill, hstore]

/-- C19, as stated, fails: two items with non-zero `UpdatedAt` and different
tuples, data `1` at 23 ns and data `12` at 3 ns, hand the same byte string to
the digest function and get the same key. -/
theorem keyInput_collides_on_shifted_boundary :
    sampleItemA.UpdatedAt.IsZero = false ∧ sampleItemB.UpdatedAt.IsZero = false ∧
    (sampleItemA.Data, sampleItemA.UpdatedAt.UnixNano, sliceBytes sampleItemA.Path,
        sampleItemA.SubmittedBy) ≠
      (sampleItemB.Data, sampleItemB.UpdatedAt.UnixNano, sliceBytes sampleItemB.Path,
        sampleItemB.SubmittedBy) ∧
    sampleItemA.keyInput ⟨0, 0⟩ = sampleItemB.keyInput ⟨0, 0⟩ ∧
    (sampleItemA.GetKey sampleSum256 ⟨0, 0⟩).map Prod.fst =
      (sampleItemB.GetKey sampleSum256 ⟨0, 0⟩).map Prod.fst := by
  decide

/-- C19, amended. Two items with non-zero `UpdatedAt` and different tuples, in
which `Data` has the same length, the decimal rendering of `UpdatedAt.UnixNano`
has the same length and `Path` has the same length, hand different byte strings
to the digest function; so their keys are equal only if the digest function maps
these two inputs to the same digest. -/
theorem keyInput_differs_when_lengths_agree (sum256 : ByteSeq → Digest) (clockA clockB : Time)
    (a b : item) (ha : a.UpdatedAt.IsZero = false) (hb : b.UpdatedAt.IsZero = false)
    (hD : a.Data.length = b.Data.length)
    (hN : (fmtInt a.UpdatedAt.UnixNano).length = (fmtInt b.UpdatedAt.UnixNano).length)
    (hP : (sliceBytes a.Path).length = (sliceBytes b.Path).length)
    (hne : (a.Data, a.UpdatedAt.UnixNano, sliceBytes a.Path, a.SubmittedBy) ≠
      (b.Data, b.UpdatedAt.UnixNano, sliceBytes b.Path, b.SubmittedBy)) :
    a.keyInput clockA ≠ b.keyInput clockB ∧
    ((a.GetKey sum256 clockA).map Prod.fst = (b.GetKey sum256 clockB).map Prod.fst →
      sum256 (a.keyInput clockA) = sum256 (b.keyInput clockB)) := by
  constructor
  · rw [keyInput_eq clockA a ha, keyInput_eq clockB b hb]
    intro h
    simp only [List.append_assoc] at h
    obtain ⟨h1, h⟩ := List.append_inj h hD
    obtain ⟨h2, h⟩ := List.append_inj h hN
    obtain ⟨h3, h4⟩ := List.append_inj h hP
    apply hne
    rw [h1, fmtInt_injective _ _ h2, h3, fmtInt_injective _ _ h4]
  · intro h
    rw [GetKey_eq, GetKey_eq] at h
    simp only [Res.map, Res.ret.injEq, Key.mk.injEq] at h
    have := fmtHex_injective _ _ h
    cases hA : sum256 (a.keyInput clockA)
    cases hB : sum256 (b.keyInput clockB)
    simp_all

theorem keyInput_differs_when_lengths_agree_witness :
    sampleItem.keyInput ⟨0, 0⟩ ≠
      ({ sampleItem with Data := str "hullo", SubmittedBy := 8 } : item).keyInput ⟨0, 0⟩ :=
  (keyInput_differs_when_lengths_agree sampleSum256 ⟨0, 0⟩ ⟨0, 0⟩ sampleItem
    { sampleItem with Data := str "hullo", SubmittedBy := 8 } (by decide) (by decide)
    rfl rfl rfl (by decide)).1

/-- C20. The code does not do what the claim says: `Delete` computes
`Flags & FlagsDeleted`, which leaves the deleted bit as it was, so `Deleted`
after `Delete` answers what it answered before; on an item that is not deleted
it answers false. -/
theorem Delete_leaves_Deleted_unchanged :
    (∀ c : item, c.Delete.Deleted = c.Deleted) ∧
    sampleItem.Deleted = false ∧ sampleItem.Delete.Deleted = false := by
  refine ⟨?_, by decide, by decide⟩
  intro c
  simp [item.Delete, item.Deleted, Nat.land_assoc]

theorem Key.assign_beyond (s : ByteSeq) :
    ∀ (pre : List Nat) (k : Key) (i : Nat) (rest : List Nat),
      (∀ j ∈ pre, j < 64 ∧ j < s.length) → 64 ≤ i → i < s.length →
      Key.assign s (pre ++ i :: rest) k = Res.panic "index out of range [64] with length 64" := by
  intro pre
  induction pre with
  | nil =>
    intro k i rest _ hi hs
    have hget : s[i]? = some s[i] := List.getElem?_eq_getElem hs
    have hn : ¬ i < 64 := by omega
    simp only [List.nil_append, Key.assign, hget, hn, dite_false]
  | cons j pre ih =>
    intro k i rest hpre hi hs
    have hj := hpre j (by simp)
    have hget : s[j]? = some s[j] := List.getElem?_eq_getElem hj.2
    simp only [List.cons_append, Key.assign, hget, hj.1, dite_true]
    exact ih _ i rest (fun x hx => hpre x (by simp [hx])) hi hs

theorem range_split (n : Nat) :
    List.range (64 + (n + 1)) = List.range 64 ++ 64 :: List.range' 65 n := by
  rw [Nat.add_comm 64 (n + 1), List.range_eq_range', List.range_eq_range',
    ← List.range'_append]
  simp [List.range'_succ]

theorem Key.FromBytes_short (k : Key) (s : ByteSeq) (h : s.length ≤ 64) :
    ∃ k1 err, k.FromBytes s = Res.ret (k1, err) ∧ (err ≠ none ↔ s.length ≠ 64) := by
  obtain ⟨k1, hk1, -⟩ := Key.assign_spec s (List.range s.length) k
    (fun i hi => by rw [List.mem_range] at hi; omega)
  have hgt : ¬ s.length > 64 := by omega
  by_cases hlt : s.length < 64
  · exact ⟨k1, some (GoError.errorf "incoming byte array %q longer than expected " [Arg.s s]),
      by simp only [Key.FromBytes, hgt, hlt, if_true, if_false, hk1, Res.map], by simp; omega⟩
  · exact ⟨k1, none, by simp only [Key.FromBytes, hgt, hlt, if_false, hk1, Res.map],
      by simp; omega⟩

theorem runeWidth_pos (b : UInt8) (rest : ByteSeq) : 1 ≤ runeWidth (b :: rest) := by
  simp only [runeWidth]
  split_ifs
  · omega
  · split
    · split_ifs <;> omega
    · omega
  · split
    · split_ifs <;> omega
    · omega
  · split
    · split_ifs <;> omega
    · omega
  · omega

theorem runeStartsFrom_bounds :
    ∀ (fuel i : Nat) (rest : ByteSeq), ∀ x ∈ runeStartsFrom fuel i rest,
      i ≤ x ∧ x < i + rest.length := by
  intro fuel
  induction fuel with
  | zero => intro i rest x hx; simp [runeStartsFrom] at hx
  | succ fuel ih =>
    intro i rest x hx
    cases rest with
    | nil => simp [runeStartsFrom] at hx
    | cons b rest =>
      simp only [runeStartsFrom, List.mem_cons] at hx
      rcases hx with hx | hx
      · subst hx; simp
      · have hw : 1 ≤ runeWidth (b :: rest) := runeWidth_pos b rest
        have := ih _ _ x hx
        simp only [List.length_drop, List.length_cons] at this ⊢
        omega

theorem Key.FromString_short (k : Key) (s : ByteSeq) (h : s.length ≤ 64) :
    ∃ k1 err, k.FromString s = Res.ret (k1, err) ∧ (err ≠ none ↔ s.length ≠ 64) := by
  obtain ⟨k1, hk1, -⟩ := Key.assign_spec s (runeStarts s) k
    (fun i hi => by
      have := runeStartsFrom_bounds s.length 0 s i hi
      omega)
  have hgt : ¬ s.length > 64 := by omega
  by_cases hlt : s.length < 64
  · exact ⟨k1, some (GoError.errorf "incoming string %q longer than expected " [Arg.s s]),
      by simp only [Key.FromString, hgt, hlt, if_true, if_false, hk1, Res.map], by simp; omega⟩
  · exact ⟨k1, none, by simp only [Key.FromString, hgt, hlt, if_false, hk1, Res.map],
      by simp; omega⟩

theorem Key.FromString_ascii_long (k k2 : Key) (b : UInt8) (t : ByteSeq)
    (h : ∀ x ∈ k2.bytes ++ b :: t, x.toNat < 0x80) :
    k.FromString (k2.bytes ++ b :: t) = Res.panic "index out of range [64] with length 64" := by
  have hlen : (k2.bytes ++ b :: t).length = 64 + (t.length + 1) := by
    simp [k2.size_eq]
  unfold Key.FromString
  rw [runeStarts_ascii _ h, hlen, range_split,
    Key.assign_beyond _ (List.range 64) k 64 _
      (fun j hj => by rw [List.mem_range] at hj; omega) (le_refl _) (by omega)]
  rfl

/-- C21. The code does not do what the claim says: an input longer than 64
bytes makes the copying loop write at index 64 of the key. `FromBytes` panics on
every input of more than 64 bytes, and `FromString` panics on a string of 65
letters `a`, instead of returning the error they have prepared. -/
theorem Key_From_long_input_panics :
    (∀ (k k2 : Key) (b : UInt8) (t : ByteSeq),
      k.FromBytes (k2.bytes ++ b :: t) = Res.panic "index out of range [64] with length 64") ∧
    Key.zero.FromString (List.replicate 65 97)
      = Res.panic "index out of range [64] with length 64" := by
  refine ⟨?_, by decide⟩
  intro k k2 b t
  have hlen : (k2.bytes ++ b :: t).length = 64 + (t.length + 1) := by
    simp [k2.size_eq]
  unfold Key.FromBytes
  rw [hlen, range_split,
    Key.assign_beyond _ (List.range 64) k 64 _
      (fun j hj => by rw [List.mem_range] at hj; omega) (le_refl _) (by omega)]
  rfl

/-- C22. The code does not do what the claim says: when the account is loaded
without error and its `Metadata` is nil, `HandleLogin` evaluates `err.Error()`
on the nil error of `LoadAccount` for its log line and panics, before it
answers. -/
theorem HandleLogin_nil_metadata_panics :
    (∀ (env : LoginEnv) (a : app.Account) (pw handle : ByteSeq),
      HandleLogin { env with LoadAccount := fun _ => ({ a with Metadata := none }, none) }
        pw handle = Res.panic "nil pointer dereference") ∧
    HandleLogin (sampleLoginEnv none) (str "secret") (str "alice")
      = Res.panic "nil pointer dereference" ∧
    HandleLogin (sampleLoginEnv (some { Password := str "secretsalt", Salt := str "salt" }))
        (str "secret") (str "alice")
      = Res.ret { status := 303, err := none, location := some (str "/"),
                  session := some { Handle := str "alice", Hash := str "f00d" } } := by
  refine ⟨?_, by decide, by decide⟩
  intro env a pw handle
  simp [HandleLogin, errError]

theorem Key.FromString_long_rune_tail_returns :
    (Key.zero.FromString (List.replicate 61 97 ++ [0xF0, 0x90, 0x8D, 0x88])).map
      (fun r => r.2.isSome) = Res.ret true := by
  decide

theorem LoadItems.collect_beyond_limit (env : Env) (col : OrderedCollection)
    (h : env.MaxSliceLen < col.TotalItems) :
    repository.LoadItems.collect env col = Res.panic "makeslice: len out of range" := by
  have hn : ¬ col.TotalItems ≤ env.MaxSliceLen := by omega
  simp only [repository.LoadItems.collect, hn, if_false]

theorem LoadItems_huge_total_panics :
    (sampleRepository.LoadItems (sampleEnvWith sampleHugeCollection) []
        LoadItemsFilter.zero).res = Res.panic "makeslice: len out of range" := by
  decide

/-- C17. The code does not do what the claim says: for an acting account,
neither nil nor the anonymous one, whose `Metadata` or whose key is nil, `sign`
panics on `r.Account.Metadata.Key` and `k.ID`; then `req` does not return the
request although it can be constructed, and `Get` hands nothing to the HTTP
client. -/
theorem req_panics_when_sign_panics :
    (∀ (env : Env) (base : ByteSeq) (a : Account) (m u : ByteSeq) (b : Option ByteSeq)
        (sent : List Request),
      repository.req { env with NewRequest := fun _ _ => none }
          { BaseUrl := base,
            Account := some ⟨env.AnonymousAccount + 1, { a with Metadata := none }⟩ } m u b
        = Res.panic "nil pointer dereference" ∧
      repository.req { env with NewRequest := fun _ _ => none }
          { BaseUrl := base,
            Account := some ⟨env.AnonymousAccount + 1,
              { a with Metadata := some { Key := none } }⟩ } m u b
        = Res.panic "nil pointer dereference" ∧
      repository.Get { env with NewRequest := fun _ _ => none }
          { BaseUrl := base,
            Account := some ⟨env.AnonymousAccount + 1, { a with Metadata := none }⟩ } sent u
        = ⟨Res.panic "nil pointer dereference", sent⟩) ∧
    (sampleEnv 200).NewRequest (str "GET") (str "http://littr.me/api/outbox/abc123") = none ∧
    sampleNoMetadataRepository.req (sampleEnv 200) (str "GET")
        (str "http://littr.me/api/outbox/abc123") none
      = Res.panic "nil pointer dereference" ∧
    (sampleNoMetadataRepository.Get (sampleEnv 200) []
        (str "http://littr.me/api/outbox/abc123")).sent = [] := by
  refine ⟨?_, rfl, rfl, by decide⟩
  intro env base a m u b sent
  refine ⟨?_, ?_, ?_⟩
  · simp [repository.req, repository.sign]
  · simp [repository.req, repository.sign]
  · simp [repository.Get, repository.req, repository.sign]

end Littr
